import Mathlib

/-!
Verification of the k8s-node-proxy runtime control plane.

This file gives a shallow embedding of the node-selection / health-monitoring
state machine, the forwarding handler and the service-discovery boot sequence
of the repository, and proves or refutes the frozen specification claims
against it.

Conventions used throughout the embedding:
* Go `time.Time` values are modelled as `Nat` timestamps (seconds since an
  arbitrary epoch); `time.Time.Before` is strict `<` on those numbers and the
  zero `time.Time{}` is `0`.  Durations (`30 * time.Second`, `2 * time.Minute`)
  become the numbers `30` and `120`.
* Go's `sort.Slice(xs, less)` with the strict `CreationTime.Before` comparator
  is embedded as `List.insertionSort` with the reflexive key order
  `creationTime ≤ creationTime`: for the slice lengths appearing in the
  concrete statements below Go's sort runs its insertion sort, which produces
  exactly this stable result, and every general theorem proved here depends
  only on sortedness and permutation, not on the order of ties.
* Kubernetes API calls (`Nodes().List`, `Nodes().Get`, `Services().List`) are
  the only effects; they enter the pure model as explicit `Except`/`Option`
  arguments describing the outcome of the RPC.
* Mutex lock / unlock pairs serialise the Go code; the embedding is the
  sequential semantics of the locked regions.
-/

/-- Health classification of a node, from the `NodeStatus` enum of the
`nodes` package (`NodeHealthy`, `NodeUnhealthy`, `NodeUnknown`). -/
inductive NodeStatus where
  | healthy
  | unhealthy
  | unknown
deriving DecidableEq, Repr

/-- One cluster-node snapshot, from the `NodeInfo` struct of the `nodes`
package.  Timestamps are `Nat` seconds. -/
structure NodeInfo where
  name : String
  ip : String
  status : NodeStatus
  age : Nat
  creationTime : Nat
  lastCheck : Nat
deriving DecidableEq, Repr

/-- Key order used by every `sort.Slice(..., CreationTime.Before)` call in the
source: nodes ordered by creation timestamp. -/
def leCreation (a b : NodeInfo) : Prop :=
  a.creationTime ≤ b.creationTime

instance : DecidableRel leCreation := fun a b =>
  inferInstanceAs (Decidable (a.creationTime ≤ b.creationTime))

instance : IsTotal NodeInfo leCreation :=
  ⟨fun a b => Nat.le_total a.creationTime b.creationTime⟩

instance : IsTrans NodeInfo leCreation :=
  ⟨fun _ _ _ h h' => Nat.le_trans h h'⟩

/-- `sort.Slice(nodeInfos, func(i, j) { CreationTime.Before })` as used by
`getAllNodesWithMetadata` in the GKE and EKS discoveries and by
`findOldestHealthyNode` in the Generic discovery. -/
def sortByCreation (l : List NodeInfo) : List NodeInfo :=
  l.insertionSort leCreation

theorem sortByCreation_sorted (l : List NodeInfo) :
    (sortByCreation l).Sorted leCreation :=
  List.sorted_insertionSort leCreation l

theorem sortByCreation_perm (l : List NodeInfo) :
    List.Perm (sortByCreation l) l :=
  List.perm_insertionSort leCreation l

theorem mem_sortByCreation {a : NodeInfo} {l : List NodeInfo} :
    a ∈ sortByCreation l ↔ a ∈ l :=
  (sortByCreation_perm l).mem_iff

/-- In a creation-sorted list, the first element satisfying `p` has the
minimum creation time among all elements satisfying `p`. -/
theorem find?_creation_min {l : List NodeInfo} (hl : l.Sorted leCreation)
    {p : NodeInfo → Bool} {n : NodeInfo} (h : l.find? p = some n) :
    ∀ m ∈ l, p m = true → n.creationTime ≤ m.creationTime := by
  induction l with
  | nil => simp at h
  | cons x xs ih =>
    rw [List.find?_cons] at h
    by_cases hx : p x
    · simp only [hx, if_pos] at h
      cases h
      intro m hm _
      rcases List.mem_cons.mp hm with rfl | hmem
      · exact Nat.le_refl _
      · exact List.rel_of_sorted_cons hl m hmem
    · simp only [hx] at h
      intro m hm hpm
      rcases List.mem_cons.mp hm with rfl | hmem
      · exact absurd hpm (by simpa using hx)
      · exact ih hl.of_cons h m hmem hpm

theorem head_creation_min {c : NodeInfo} {rest : List NodeInfo}
    (h : (c :: rest).Sorted leCreation) :
    ∀ m ∈ c :: rest, c.creationTime ≤ m.creationTime := by
  intro m hm
  rcases List.mem_cons.mp hm with rfl | hmem
  · exact Nat.le_refl _
  · exact List.rel_of_sorted_cons h m hmem

/-- The accumulator step of the candidate scan in
`GenericNodeDiscovery.performFailover`: keep the candidate with the strictly
smaller creation time (`node.CreationTime.Before(candidate.CreationTime)`),
so the first-seen candidate wins ties. -/
def minStep (cand : Option NodeInfo) (n : NodeInfo) : Option NodeInfo :=
  match cand with
  | none => some n
  | some c => if n.creationTime < c.creationTime then some n else some c

/-- The scan `for _, node := range nodes { if p node { minStep } }`. -/
def pickStep (p : NodeInfo → Bool) (cand : Option NodeInfo) (n : NodeInfo) :
    Option NodeInfo :=
  if p n then minStep cand n else cand

theorem pick_eq_filter_min (p : NodeInfo → Bool) :
    ∀ (l : List NodeInfo) (acc : Option NodeInfo),
      l.foldl (pickStep p) acc = (l.filter p).foldl minStep acc := by
  intro l
  induction l with
  | nil => intro acc; rfl
  | cons x xs ih =>
    intro acc
    by_cases hx : p x
    · simp [List.filter_cons, hx, List.foldl_cons, pickStep, ih]
    · simp [List.filter_cons, hx, List.foldl_cons, pickStep, ih]

theorem minFold_mem :
    ∀ (l : List NodeInfo) (acc : Option NodeInfo) (c : NodeInfo),
      l.foldl minStep acc = some c → c ∈ l ∨ acc = some c := by
  intro l
  induction l with
  | nil => intro acc c h; exact Or.inr h
  | cons x xs ih =>
    intro acc c h
    rw [List.foldl_cons] at h
    rcases ih (minStep acc x) c h with hmem | hacc
    · exact Or.inl (List.mem_cons_of_mem _ hmem)
    · cases acc with
      | none =>
        simp only [minStep] at hacc
        cases hacc
        exact Or.inl (List.mem_cons_self x xs)
      | some a =>
        by_cases hlt : x.creationTime < a.creationTime
        · simp only [minStep, if_pos hlt] at hacc
          cases hacc
          exact Or.inl (List.mem_cons_self x xs)
        · simp only [minStep, if_neg hlt] at hacc
          exact Or.inr hacc

theorem minFold_min :
    ∀ (l : List NodeInfo) (acc : Option NodeInfo) (c : NodeInfo),
      l.foldl minStep acc = some c →
      (∀ m ∈ l, c.creationTime ≤ m.creationTime) ∧
      (∀ a, acc = some a → c.creationTime ≤ a.creationTime) := by
  intro l
  induction l with
  | nil =>
    intro acc c h
    refine ⟨by simp, fun a ha => ?_⟩
    rw [ha] at h
    cases h
    exact Nat.le_refl _
  | cons x xs ih =>
    intro acc c h
    rw [List.foldl_cons] at h
    obtain ⟨hxs, hacc'⟩ := ih (minStep acc x) c h
    have hcx : c.creationTime ≤ x.creationTime := by
      cases acc with
      | none => exact hacc' x rfl
      | some a =>
        by_cases hlt : x.creationTime < a.creationTime
        · exact hacc' x (by simp [minStep, hlt])
        · exact Nat.le_trans (hacc' a (by simp [minStep, hlt]))
            (Nat.le_of_not_lt hlt)
    refine ⟨fun m hm => ?_, fun a ha => ?_⟩
    · rcases List.mem_cons.mp hm with rfl | hmem
      · exact hcx
      · exact hxs m hmem
    · cases acc with
      | none => cases ha
      | some b =>
        cases ha
        by_cases hlt : x.creationTime < a.creationTime
        · exact Nat.le_trans (hacc' x (by simp [minStep, hlt]))
            (Nat.le_of_lt hlt)
        · exact hacc' a (by simp [minStep, hlt])

theorem minFold_isSome :
    ∀ (l : List NodeInfo) (acc : Option NodeInfo),
      l ≠ [] → (l.foldl minStep acc).isSome := by
  intro l
  induction l with
  | nil => intro acc h; exact absurd rfl h
  | cons x xs ih =>
    intro acc _
    rw [List.foldl_cons]
    cases hxs : xs with
    | nil =>
      subst hxs
      cases acc with
      | none => rfl
      | some a =>
        by_cases hlt : x.creationTime < a.creationTime <;>
          simp [minStep, hlt]
    | cons y ys =>
      rw [← hxs]
      exact ih (minStep acc x) (by simp [hxs])

/-!
## GKE node discovery (`NodeDiscovery`, internal/nodes)

State fields follow the `NodeDiscovery` struct; the constants are
`cacheTTL = 2 min`, `failureThreshold = 3`, `checkInterval = 15 s`.
The Kubernetes `Nodes().List` call is passed in as
`fetch : Except String (List NodeInfo)` — the already-converted raw records
(name, internal IP, Ready-condition status, creation time), before the
empty-IP filtering and sorting that `getAllNodesWithMetadata` performs.
-/

namespace NodeDiscovery

structure State where
  cachedIP : String
  cachedNodes : List NodeInfo
  currentNodeName : String
  cacheTime : Nat
  failureCount : Nat
deriving Repr, DecidableEq

/-- `getAllNodesWithMetadata`: convert the listed nodes, skipping records
without an internal IP, and sort ascending by creation time. -/
def getAllNodesWithMetadata (fetch : Except String (List NodeInfo)) :
    Except String (List NodeInfo) :=
  match fetch with
  | .error e => .error ("failed to list nodes: " ++ e)
  | .ok raws => .ok (sortByCreation (raws.filter (fun n => n.ip != "")))

/-- `findOldestHealthyNode`: first Healthy entry of the (already sorted)
slice. -/
def findOldestHealthyNode (nodes : List NodeInfo) : Option NodeInfo :=
  nodes.find? (fun n => n.status == NodeStatus.healthy)

/-- `discoverNodeIP`: list the nodes, cache the list, pick the oldest
healthy node — or, when no node is Healthy, fall back to the oldest node
regardless of status (`oldestNode = &nodeInfos[0]`) — and record its name
as the current node.  Returns the chosen IP and the updated state. -/
def discoverNodeIP (st : State) (fetch : Except String (List NodeInfo)) :
    Except String (String × State) :=
  match getAllNodesWithMetadata fetch with
  | .error e => .error e
  | .ok nodeInfos =>
    match nodeInfos with
    | [] => .error "no nodes found in cluster"
    | n0 :: rest =>
      let oldestNode := (findOldestHealthyNode (n0 :: rest)).getD n0
      .ok (oldestNode.ip,
        { st with
          cachedNodes := n0 :: rest
          currentNodeName := oldestNode.name })

/-- `GetCurrentNodeIP`: serve the cached IP while it is younger than the
2-minute `cacheTTL`, otherwise run `discoverNodeIP` and cache its result at
time `now`. -/
def GetCurrentNodeIP (st : State) (fetch : Except String (List NodeInfo))
    (now : Nat) : Except String (String × State) :=
  if st.cachedIP != "" && now - st.cacheTime < 120 then
    .ok (st.cachedIP, st)
  else
    match discoverNodeIP st fetch with
    | .error e => .error e
    | .ok (ip, st') => .ok (ip, { st' with cachedIP := ip, cacheTime := now })

/-- `updateCurrentNodeLastCheck`: stamp the current node's entry in the
cached list and set its status from the probe outcome (first match wins,
then `break`). -/
def updateNodeCheck (nodes : List NodeInfo) (nodeName : String)
    (lastCheck : Nat) (isHealthy : Bool) : List NodeInfo :=
  match nodes with
  | [] => []
  | n :: ns =>
    if n.name = nodeName then
      { n with
        lastCheck := lastCheck
        status := if isHealthy then NodeStatus.healthy else NodeStatus.unhealthy } :: ns
    else
      n :: updateNodeCheck ns nodeName lastCheck isHealthy

def updateCurrentNodeLastCheck (st : State) (nodeName : String)
    (lastCheck : Nat) (isHealthy : Bool) : State :=
  { st with cachedNodes := updateNodeCheck st.cachedNodes nodeName lastCheck isHealthy }

/-- `performFailover`: clear the IP cache up front, fetch a fresh node list,
and switch to the first listed node that is Healthy and not the current
node; when the fetch fails or no such node exists, return with the cache
still cleared. -/
def performFailover (st : State) (fetch : Except String (List NodeInfo))
    (now : Nat) : State :=
  let st := { st with cachedIP := "", cacheTime := 0 }
  match getAllNodesWithMetadata fetch with
  | .error _ => st
  | .ok nodes =>
    match nodes.find?
        (fun n => n.name != st.currentNodeName && n.status == NodeStatus.healthy) with
    | some node =>
      { st with cachedIP := node.ip, currentNodeName := node.name, cacheTime := now }
    | none => st

/-- `handleNodeFailure`: count the failure and, at the threshold of 3,
run `performFailover` and reset the counter afterwards (the reset happens
whether or not the failover found a candidate). -/
def handleNodeFailure (st : State) (fetch : Except String (List NodeInfo))
    (now : Nat) : State :=
  let st := { st with failureCount := st.failureCount + 1 }
  if st.failureCount ≥ 3 then
    let st := performFailover st fetch now
    { st with failureCount := 0 }
  else
    st

/-- `performHealthCheck`: one tick of the monitor loop.  With no current
node the check is skipped; otherwise the probe outcome
(`isCurrentNodeHealthy`, which also maps a failed `Nodes().Get` to `false`)
is recorded and either resets the failure counter or feeds
`handleNodeFailure`. -/
def performHealthCheck (st : State) (isHealthy : Bool)
    (fetch : Except String (List NodeInfo)) (now : Nat) : State :=
  if st.currentNodeName = "" then
    st
  else
    let st := updateCurrentNodeLastCheck st st.currentNodeName now isHealthy
    if isHealthy then
      { st with failureCount := 0 }
    else
      handleNodeFailure st fetch now

/-- `GetCurrentNodeName`: read of the name slot. -/
def GetCurrentNodeName (st : State) : String :=
  st.currentNodeName

end NodeDiscovery

/-!
## Generic node discovery (`GenericNodeDiscovery`, internal/nodes)

The Generic skin keeps its own state shape: the node-list cache
(`cachedNodes`/`cacheTime`, 2-minute TTL), the current selection
(`currentNodeName`/`currentNodeIP`), the probe stamp `lastCheck` gating the
30-second `GetCurrentNodeIP` fast path, and `failureCount`.
`nodeToNodeInfo` prefers the external IP and keeps records even when no
address was found, so the fetch argument is used as-is (no filtering, no
sorting). -/

namespace GenericNodeDiscovery

structure State where
  cachedNodes : List NodeInfo
  cacheTime : Nat
  currentNodeName : String
  currentNodeIP : String
  failureCount : Nat
  lastCheck : Nat
deriving Repr, DecidableEq

/-- `getAllNodesWithMetadata`: serve the cached list while it is non-empty
and younger than the 2-minute TTL, else hit the API and replace the cache.
Returns the list together with the (possibly updated) state. -/
def getAllNodesWithMetadata (st : State) (fetch : Except String (List NodeInfo))
    (now : Nat) : Except String (List NodeInfo × State) :=
  if !st.cachedNodes.isEmpty && now - st.cacheTime < 120 then
    .ok (st.cachedNodes, st)
  else
    match fetch with
    | .error e => .error ("failed to list nodes: " ++ e)
    | .ok nodes => .ok (nodes, { st with cachedNodes := nodes, cacheTime := now })

/-- `findOldestHealthyNode`: filter to Healthy, sort by creation time, take
the first (or report none). -/
def findOldestHealthyNode (nodes : List NodeInfo) : Option NodeInfo :=
  match sortByCreation (nodes.filter (fun n => n.status == NodeStatus.healthy)) with
  | [] => none
  | n :: _ => some n

/-- `discoverNodeIP`: re-serve a still-valid selection (2-minute TTL on
`cacheTime`), otherwise list the nodes and select the oldest healthy one,
failing with `"no healthy nodes found"` when none is Healthy. -/
def discoverNodeIP (st : State) (fetch : Except String (List NodeInfo))
    (now : Nat) : Except String (String × State) :=
  if st.currentNodeIP != "" && now - st.cacheTime < 120 then
    .ok (st.currentNodeIP, { st with lastCheck := now })
  else
    match getAllNodesWithMetadata st fetch now with
    | .error e => .error ("failed to get nodes: " ++ e)
    | .ok (nodes, st1) =>
      match nodes with
      | [] => .error "no nodes found in cluster"
      | _ :: _ =>
        match findOldestHealthyNode nodes with
        | none => .error "no healthy nodes found"
        | some selectedNode =>
          .ok (selectedNode.ip,
            { st1 with
              currentNodeName := selectedNode.name
              currentNodeIP := selectedNode.ip
              cacheTime := now
              lastCheck := now
              failureCount := 0 })

/-- `GetCurrentNodeIP`: serve the current IP while the last probe is younger
than 30 seconds, else `discoverNodeIP`. -/
def GetCurrentNodeIP (st : State) (fetch : Except String (List NodeInfo))
    (now : Nat) : Except String (String × State) :=
  if st.currentNodeIP != "" && now - st.lastCheck < 30 then
    .ok (st.currentNodeIP, st)
  else
    discoverNodeIP st fetch now

/-- `updateCurrentNodeLastCheck`: stamp `lastCheck` on the state and update
the matching cached entry's status. -/
def updateCurrentNodeLastCheck (st : State) (nodeName : String)
    (lastCheck : Nat) (isHealthy : Bool) : State :=
  { st with
    lastCheck := lastCheck
    cachedNodes := NodeDiscovery.updateNodeCheck st.cachedNodes nodeName lastCheck isHealthy }

/-- The candidate scan of `performFailover`: the oldest Healthy node whose
name differs from the current one (first seen wins creation-time ties). -/
def selectFailoverCandidate (currentNode : String) (nodes : List NodeInfo) :
    Option NodeInfo :=
  nodes.foldl
    (pickStep (fun n => n.status == NodeStatus.healthy && n.name != currentNode))
    none

/-- The post-fetch half of `performFailover`: switch to the candidate, or
leave the selection untouched when there is none. -/
def performFailoverWith (st : State) (nodes : List NodeInfo) (now : Nat) : State :=
  match selectFailoverCandidate st.currentNodeName nodes with
  | none => st
  | some candidate =>
    { st with
      currentNodeName := candidate.name
      currentNodeIP := candidate.ip
      failureCount := 0
      lastCheck := now }

/-- `performFailover`: fetch a fresh list (through the TTL cache) and hand it
to the candidate scan; a failed fetch leaves the state untouched. -/
def performFailover (st : State) (fetch : Except String (List NodeInfo))
    (now : Nat) : State :=
  match getAllNodesWithMetadata st fetch now with
  | .error _ => st
  | .ok (nodes, st1) => performFailoverWith st1 nodes now

/-- `handleNodeFailure`: count the failure; at 3 consecutive failures run
`performFailover` (which resets the counter only on success). -/
def handleNodeFailure (st : State) (fetch : Except String (List NodeInfo))
    (now : Nat) : State :=
  let st := { st with failureCount := st.failureCount + 1 }
  if st.failureCount ≥ 3 then
    performFailover st fetch now
  else
    st

/-- `performHealthCheck`: one monitor tick.  `probe` is the outcome of
`Nodes().Get` on the current node: `none` for an RPC error (counts as a
failure without stamping `lastCheck`), `some b` for a fetched node whose
Ready condition is `b`. -/
def performHealthCheck (st : State) (probe : Option Bool)
    (fetch : Except String (List NodeInfo)) (now : Nat) : State :=
  if st.currentNodeName = "" then
    st
  else
    match probe with
    | none => handleNodeFailure st fetch now
    | some isHealthy =>
      let st := updateCurrentNodeLastCheck st st.currentNodeName now isHealthy
      if !isHealthy then
        handleNodeFailure st fetch now
      else
        { st with failureCount := 0 }

def GetCurrentNodeName (st : State) : String :=
  st.currentNodeName

end GenericNodeDiscovery

/-!
## EKS node discovery (`EKSNodeDiscovery`, internal/nodes/eks_discovery.go)

Same state shape as the Generic skin.  `getAllNodesWithMetadata` is the
GKE one (internal-IP only, creation-sorted, and — unlike the Generic skin —
not backed by the TTL cache, which only serves `GetAllNodes`). -/

namespace EKSNodeDiscovery

structure State where
  cachedNodes : List NodeInfo
  cacheTime : Nat
  currentNodeName : String
  currentNodeIP : String
  failureCount : Nat
  lastCheck : Nat
deriving Repr, DecidableEq

def getAllNodesWithMetadata (fetch : Except String (List NodeInfo)) :
    Except String (List NodeInfo) :=
  NodeDiscovery.getAllNodesWithMetadata fetch

/-- `findOldestHealthyNode`: first Healthy entry of the sorted slice. -/
def findOldestHealthyNode (nodes : List NodeInfo) : Option NodeInfo :=
  nodes.find? (fun n => n.status == NodeStatus.healthy)

/-- `discoverNodeIP`: always fetches; errors on an empty cluster and when no
node is Healthy; on success selects the oldest healthy node and resets the
failure counter. -/
def discoverNodeIP (st : State) (fetch : Except String (List NodeInfo))
    (now : Nat) : Except String (String × State) :=
  match getAllNodesWithMetadata fetch with
  | .error e => .error ("failed to get nodes: " ++ e)
  | .ok nodes =>
    match nodes with
    | [] => .error "no nodes found in cluster"
    | _ :: _ =>
      match findOldestHealthyNode nodes with
      | none => .error "no healthy nodes found"
      | some selectedNode =>
        .ok (selectedNode.ip,
          { st with
            currentNodeName := selectedNode.name
            currentNodeIP := selectedNode.ip
            lastCheck := now
            failureCount := 0 })

/-- `GetCurrentNodeIP`: 30-second fast path on `lastCheck`, else
`discoverNodeIP`. -/
def GetCurrentNodeIP (st : State) (fetch : Except String (List NodeInfo))
    (now : Nat) : Except String (String × State) :=
  if st.currentNodeIP != "" && now - st.lastCheck < 30 then
    .ok (st.currentNodeIP, st)
  else
    discoverNodeIP st fetch now

/-- `updateCurrentNodeLastCheck` (EKS flavour): stamp the cached entry and
mark it Unhealthy on a failed probe; a healthy probe leaves the recorded
status untouched. -/
def updateNodeCheckEKS (nodes : List NodeInfo) (nodeName : String)
    (lastCheck : Nat) (isHealthy : Bool) : List NodeInfo :=
  match nodes with
  | [] => []
  | n :: ns =>
    if n.name = nodeName then
      (if isHealthy then { n with lastCheck := lastCheck }
       else { n with lastCheck := lastCheck, status := NodeStatus.unhealthy }) :: ns
    else
      n :: updateNodeCheckEKS ns nodeName lastCheck isHealthy

def updateCurrentNodeLastCheck (st : State) (nodeName : String)
    (lastCheck : Nat) (isHealthy : Bool) : State :=
  { st with cachedNodes := updateNodeCheckEKS st.cachedNodes nodeName lastCheck isHealthy }

/-- `performFailover`: fetch fresh, keep the Healthy nodes other than the
current one, and switch to the oldest of them; on a failed fetch or an
empty candidate set the state is returned unchanged. -/
def performFailover (st : State) (fetch : Except String (List NodeInfo))
    (now : Nat) : State :=
  match getAllNodesWithMetadata fetch with
  | .error _ => st
  | .ok nodes =>
    let candidates := nodes.filter
      (fun n => n.name != st.currentNodeName && n.status == NodeStatus.healthy)
    match candidates with
    | [] => st
    | _ :: _ =>
      match findOldestHealthyNode candidates with
      | none => st
      | some selectedNode =>
        { st with
          currentNodeName := selectedNode.name
          currentNodeIP := selectedNode.ip
          failureCount := 0
          lastCheck := now }

/-- `handleNodeFailure`: count and, at the threshold of 3, failover (the
counter resets only inside a successful `performFailover`). -/
def handleNodeFailure (st : State) (fetch : Except String (List NodeInfo))
    (now : Nat) : State :=
  let st := { st with failureCount := st.failureCount + 1 }
  if st.failureCount ≥ 3 then
    performFailover st fetch now
  else
    st

/-- `performHealthCheck`: one monitor tick, `probe` as in the Generic
model. -/
def performHealthCheck (st : State) (probe : Option Bool)
    (fetch : Except String (List NodeInfo)) (now : Nat) : State :=
  if st.currentNodeName = "" then
    st
  else
    match probe with
    | none => handleNodeFailure st fetch now
    | some isHealthy =>
      let st := updateCurrentNodeLastCheck st st.currentNodeName now isHealthy
      if isHealthy then
        { st with failureCount := 0 }
      else
        handleNodeFailure st fetch now

def GetCurrentNodeName (st : State) : String :=
  st.currentNodeName

end EKSNodeDiscovery

/-!
## Forwarding handler (`Handler`, internal/proxy)

Host strings are handled at the character-list level.  `':'` and `']'` are
single-byte characters, so Go's byte-indexed `strings.LastIndexByte` agrees
with the character-indexed search used here on every UTF-8 host string. -/

namespace Handler

/-- `strings.LastIndexByte`: index of the last occurrence, if any. -/
def lastIndexOf (l : List Char) (c : Char) : Option Nat :=
  match l with
  | [] => none
  | x :: xs =>
    match lastIndexOf xs c with
    | some i => some (i + 1)
    | none => if x = c then some 0 else none

/-- Accumulate a decimal numeral, as `strconv.Atoi` does digit by digit. -/
def digitsToNat (l : List Char) : Nat :=
  l.foldl (fun a d => a * 10 + (d.toNat - '0'.toNat)) 0

/-- `strconv.Atoi`: an optional sign followed by at least one ASCII digit,
with the 64-bit signed range check of `strconv.ParseInt`. -/
def goAtoi (s : List Char) : Option Int :=
  match s with
  | [] => none
  | c :: cs =>
    let digits := if c = '+' || c = '-' then cs else c :: cs
    let neg := c = '-'
    if digits.isEmpty then none
    else if digits.all Char.isDigit then
      let v : Int := if neg then -(digitsToNat digits : Int) else (digitsToNat digits : Int)
      if -(2 ^ 63) ≤ v && v ≤ 2 ^ 63 - 1 then some v else none
    else none

/-- `parseHostPort` from the proxy package: split at the last `':'`, unless
that colon sits inside an IPv6 bracket (at or before the last `']'`); the
port must pass `strconv.Atoi`.  `none` is the `err ≠ nil` outcome. -/
def parseHostPort (hostPort : List Char) : Option (List Char × List Char) :=
  match lastIndexOf hostPort ':' with
  | none => some (hostPort, [])
  | some colon =>
    let bracketed : Bool :=
      match lastIndexOf hostPort ']' with
      | some i => decide (colon ≤ i)
      | none => false
    if bracketed then
      some (hostPort, [])
    else
      let port := hostPort.drop (colon + 1)
      match goAtoi port with
      | none => none
      | some _ => some (hostPort.take colon, port)

/-- `Handler.extractPort`: the validated port segment of the Host header,
defaulting to `"80"`. -/
def extractPort (host : String) : String :=
  if host.data.contains ':' then
    match parseHostPort host.data with
    | some (_, port) => if port ≠ [] then String.mk port else "80"
    | none => "80"
  else
    "80"

/-- The target URL built by `ServeHTTP`:
`http://<ip>:<port><path>` with `?<rawQuery>` appended when the raw query is
non-empty. -/
def buildTargetURL (nodeIP port path rawQuery : String) : String :=
  "http://" ++ nodeIP ++ ":" ++ port ++ path ++
    (if rawQuery != "" then "?" ++ rawQuery else "")

/-- `strings.ToLower` restricted to ASCII, where it agrees with Go's
Unicode folding: header names parsed by `net/http` are ASCII tokens. -/
def lowerName (s : String) : String :=
  String.mk (s.data.map Char.toLower)

/-- `Handler.shouldSkipHeader`: the lowercase key is one of the eight
hop-by-hop names. -/
def shouldSkipHeader (key : String) : Bool :=
  let k := lowerName key
  k = "connection" || k = "upgrade" || k = "proxy-connection" ||
    k = "proxy-authenticate" || k = "proxy-authorization" || k = "te" ||
    k = "trailers" || k = "transfer-encoding"

/-- The header-copy loop of `ServeHTTP`: every inbound key that
`shouldSkipHeader` rejects is added to the proxy request with all of its
values; skipped keys are dropped entirely. -/
def forwardHeaders (hs : List (String × List String)) :
    List (String × List String) :=
  hs.filter (fun kv => !shouldSkipHeader kv.1)

/-- What a handler does with one request, seen from the outside. -/
inductive PortAction where
  | respondHomepage
  | respondFavicon
  | respondHealth
  | respondUnhealthy
  | respondInfo
  | respondServiceUnavailable
  | respondInternalError
  | respondNotFound
  | forwardTo (url : String)
deriving DecidableEq, Repr

/-- The routing skeleton of `Handler.ServeHTTP`: `/health` is answered
locally from the discovery state; every other path is forwarded to the
current node IP when one is available, and answered 503 otherwise. -/
def ServeHTTP (currentIP : Except String String)
    (host path rawQuery : String) : PortAction :=
  if path = "/health" then
    match currentIP with
    | .ok _ => PortAction.respondHealth
    | .error _ => PortAction.respondUnhealthy
  else
    match currentIP with
    | .error _ => PortAction.respondServiceUnavailable
    | .ok nodeIP =>
      PortAction.forwardTo (buildTargetURL nodeIP (extractPort host) path rawQuery)

end Handler

/-!
## Management-port handlers

`Server.createServiceHandler` (internal/server/server.go) registers one
catch-all function that answers `/`, `/favicon.ico` and `/health` and
returns 404 for every other path; nothing on this mux forwards.
`GenericServer.createServiceHandler` registers `/` (the `ServeMux`
catch-all, answered by the homepage handler) and the exact pattern `/info`;
it has no 404 branch at all.  Paths are the cleaned `r.URL.Path`. -/

namespace Server

/-- The `Server.createServiceHandler` mux: dispatch on the request path. -/
def createServiceHandler (path : String) : Handler.PortAction :=
  if path = "/" then
    Handler.PortAction.respondHomepage
  else if path = "/favicon.ico" then
    Handler.PortAction.respondFavicon
  else if path = "/health" then
    Handler.PortAction.respondHealth
  else
    Handler.PortAction.respondNotFound

end Server

namespace GenericServer

/-- The `GenericServer.createServiceHandler` mux: the exact pattern `/info`
wins, every other path matches the `/` catch-all and is answered by the
homepage handler. -/
def createServiceHandler (path : String) : Handler.PortAction :=
  if path = "/info" then
    Handler.PortAction.respondInfo
  else
    Handler.PortAction.respondHomepage

end GenericServer

/-!
## Service discovery and the boot sequence

`GenericNodePortDiscovery` (internal/services/generic_discovery.go) reads
the namespace from the `NAMESPACE` environment variable, which enters the
model as an explicit argument; the `Services(namespace).List` RPC is the
`fetch` argument. -/

/-- One port entry of a raw Kubernetes service. -/
structure RawServicePort where
  nodePort : Int
  targetPort : Int
  protocol : String
deriving Repr, DecidableEq

/-- A raw Kubernetes service as consumed by the discovery (`svcType` is the
string of `Spec.Type`, e.g. `"NodePort"`). -/
structure RawService where
  name : String
  ns : String
  svcType : String
  ports : List RawServicePort
deriving Repr, DecidableEq

/-- A discovered NodePort service, from the `ServiceInfo` struct. -/
structure ServiceInfo where
  name : String
  ns : String
  nodePort : Int
  targetPort : Int
  protocol : String
deriving Repr, DecidableEq

namespace GenericNodePortDiscovery

/-- `DiscoverServices`: fail on an empty namespace, else list the services
of that namespace and keep, for every service of type NodePort, its port
entries with a non-zero `nodePort`. -/
def DiscoverServices (namespaceEnv : String)
    (fetch : Except String (List RawService)) :
    Except String (List ServiceInfo) :=
  if namespaceEnv = "" then
    .error "NAMESPACE environment variable is required"
  else
    match fetch with
    | .error e => .error ("failed to list services: " ++ e)
    | .ok items =>
      .ok (items.flatMap (fun service =>
        if service.svcType = "NodePort" then
          service.ports.filterMap (fun port =>
            if port.nodePort != 0 then
              some ⟨service.name, service.ns, port.nodePort, port.targetPort,
                port.protocol⟩
            else
              none)
        else
          []))

/-- `DiscoverNodePorts`: the `nodePort` numbers of `DiscoverServices`. -/
def DiscoverNodePorts (namespaceEnv : String)
    (fetch : Except String (List RawService)) : Except String (List Int) :=
  match DiscoverServices namespaceEnv fetch with
  | .error e => .error e
  | .ok services => .ok (services.map (fun s => s.nodePort))

end GenericNodePortDiscovery

/-- Outcome of a boot: the process exit code (`log.Fatalf` on a `Run` error
gives 1, a clean signal-driven shutdown gives 0) and the ports on which
listeners were started, in order. -/
structure BootResult where
  exitCode : Nat
  startedPorts : List Int
deriving Repr, DecidableEq

namespace GenericServer

/-- The startup half of `GenericServer.Run`: `collectServerInfo` (which runs
`DiscoverServices` and `GetAllNodes`) aborts the boot on error before any
listener exists; then the management port is started, `DiscoverNodePorts`
runs, and one proxy listener per discovered port is started. -/
def Run (namespaceEnv : String) (servicePort : Int)
    (svcFetch : Except String (List RawService))
    (nodesFetch : Except String (List NodeInfo)) : BootResult :=
  match GenericNodePortDiscovery.DiscoverServices namespaceEnv svcFetch with
  | .error _ => { exitCode := 1, startedPorts := [] }
  | .ok _ =>
    match nodesFetch with
    | .error _ => { exitCode := 1, startedPorts := [] }
    | .ok _ =>
      match GenericNodePortDiscovery.DiscoverNodePorts namespaceEnv svcFetch with
      | .error _ => { exitCode := 1, startedPorts := [servicePort] }
      | .ok ports => { exitCode := 0, startedPorts := servicePort :: ports }

end GenericServer

/-!
## Shared helper lemmas
-/

theorem find?_exists {α : Type} {p : α → Bool} {l : List α} {a : α}
    (ha : a ∈ l) (hpa : p a = true) : ∃ b, l.find? p = some b := by
  induction l with
  | nil => cases ha
  | cons x xs ih =>
    rw [List.find?_cons]
    by_cases hx : p x
    · exact ⟨x, by simp [hx]⟩
    · rcases List.mem_cons.mp ha with rfl | hmem
      · exact absurd hpa hx
      · simpa [hx] using ih hmem

theorem sorted_filter {l : List NodeInfo} (hl : l.Sorted leCreation)
    (p : NodeInfo → Bool) : (l.filter p).Sorted leCreation :=
  hl.sublist (List.filter_sublist l)

/-- Sample nodes used in the concrete statements below. -/
def nodeA : NodeInfo :=
  { name := "a", ip := "10.0.0.1", status := NodeStatus.healthy,
    age := 0, creationTime := 100, lastCheck := 0 }

def nodeB : NodeInfo :=
  { name := "b", ip := "10.0.0.2", status := NodeStatus.healthy,
    age := 0, creationTime := 100, lastCheck := 0 }

def nodeU : NodeInfo :=
  { name := "n1", ip := "10.0.0.9", status := NodeStatus.unhealthy,
    age := 0, creationTime := 50, lastCheck := 0 }

def nodeFresh : NodeInfo :=
  { name := "n2", ip := "10.9.9.9", status := NodeStatus.healthy,
    age := 0, creationTime := 10, lastCheck := 0 }

/-- Empty GKE discovery state (all slots unset). -/
def gkeEmptyState : NodeDiscovery.State :=
  { cachedIP := "", cachedNodes := [], currentNodeName := "",
    cacheTime := 0, failureCount := 0 }

/-!
## C1 — selection of the oldest healthy node
-/

/-- The node list as `NodeDiscovery.getAllNodesWithMetadata` surfaces it to
selection: records with an internal IP, creation-sorted. -/
def surfacedNodes (raws : List NodeInfo) : List NodeInfo :=
  sortByCreation (raws.filter (fun n => n.ip != ""))

theorem surfaced_eq (raws : List NodeInfo) :
    NodeDiscovery.getAllNodesWithMetadata (.ok raws) = .ok (surfacedNodes raws) :=
  rfl

theorem mem_surfaced {m : NodeInfo} {raws : List NodeInfo} :
    m ∈ surfacedNodes raws ↔ m ∈ raws ∧ m.ip ≠ "" := by
  unfold surfacedNodes
  rw [mem_sortByCreation, List.mem_filter]
  simp [bne_iff_ne]

/-- C1 (amended): over the surfaced node list, when at least one record is
Healthy, `discoverNodeIP` selects a Healthy record of minimum creation time
(ties resolved by the stable creation sort, not by name); an empty surfaced
list yields the `"no nodes found in cluster"` error; and with a non-empty
surfaced list containing no Healthy record, the GKE `discoverNodeIP` falls
back to the oldest record regardless of status while the Generic and EKS
`discoverNodeIP` return the `"no healthy nodes found"` error. -/
theorem discoverNodeIP_selects_oldest_healthy
    (st : NodeDiscovery.State) (stG : GenericNodeDiscovery.State)
    (stE : EKSNodeDiscovery.State) (raws rawsG : List NodeInfo) :
    (surfacedNodes raws = [] →
      NodeDiscovery.discoverNodeIP st (.ok raws) =
        .error "no nodes found in cluster") ∧
    ((∃ n ∈ raws, n.ip ≠ "" ∧ n.status = NodeStatus.healthy) →
      ∃ c, c ∈ raws ∧ c.ip ≠ "" ∧ c.status = NodeStatus.healthy ∧
        (∀ m ∈ raws, m.ip ≠ "" → m.status = NodeStatus.healthy →
          c.creationTime ≤ m.creationTime) ∧
        NodeDiscovery.discoverNodeIP st (.ok raws) =
          .ok (c.ip,
            { st with cachedNodes := surfacedNodes raws,
                      currentNodeName := c.name })) ∧
    ((∀ n ∈ raws, n.ip ≠ "" → n.status ≠ NodeStatus.healthy) →
      ∀ c rest, surfacedNodes raws = c :: rest →
        NodeDiscovery.discoverNodeIP st (.ok raws) =
          .ok (c.ip,
            { st with cachedNodes := surfacedNodes raws,
                      currentNodeName := c.name })) ∧
    (stG.currentNodeIP = "" → stG.cachedNodes = [] → rawsG ≠ [] →
      (∀ n ∈ rawsG, n.status ≠ NodeStatus.healthy) →
      ∀ now, GenericNodeDiscovery.discoverNodeIP stG (.ok rawsG) now =
        .error "no healthy nodes found") ∧
    ((∀ n ∈ raws, n.ip ≠ "" → n.status ≠ NodeStatus.healthy) →
      surfacedNodes raws ≠ [] →
      ∀ now, EKSNodeDiscovery.discoverNodeIP stE (.ok raws) now =
        .error "no healthy nodes found") := by
  have hsorted : (surfacedNodes raws).Sorted leCreation :=
    sortByCreation_sorted _
  refine ⟨?_, ?_, ?_, ?_, ?_⟩
  · intro hempty
    unfold NodeDiscovery.discoverNodeIP
    rw [surfaced_eq, hempty]
  · rintro ⟨n, hn, hip, hstat⟩
    have hnsurf : n ∈ surfacedNodes raws := mem_surfaced.mpr ⟨hn, hip⟩
    obtain ⟨c, hc⟩ := find?_exists (p := fun n => n.status == NodeStatus.healthy)
      hnsurf (by simp [hstat])
    have hcmem : c ∈ surfacedNodes raws := List.mem_of_find?_eq_some hc
    have hcstat : c.status = NodeStatus.healthy := by
      have := List.find?_some hc
      simpa using this
    have hcmin : ∀ m ∈ surfacedNodes raws, m.status = NodeStatus.healthy →
        c.creationTime ≤ m.creationTime := by
      intro m hm hms
      exact find?_creation_min hsorted hc m hm (by simp [hms])
    obtain ⟨hcraw, hcip⟩ := mem_surfaced.mp hcmem
    refine ⟨c, hcraw, hcip, hcstat, ?_, ?_⟩
    · intro m hm hmip hms
      exact hcmin m (mem_surfaced.mpr ⟨hm, hmip⟩) hms
    · cases hsurf : surfacedNodes raws with
      | nil => rw [hsurf] at hnsurf; cases hnsurf
      | cons n0 rest =>
        unfold NodeDiscovery.discoverNodeIP
        rw [surfaced_eq, hsurf]
        rw [hsurf] at hc
        simp only [NodeDiscovery.findOldestHealthyNode, hc, Option.getD_some]
  · intro hnone c rest hsurf
    have hfind : (surfacedNodes raws).find?
        (fun n => n.status == NodeStatus.healthy) = none := by
      rw [List.find?_eq_none]
      intro m hm
      obtain ⟨hmraw, hmip⟩ := mem_surfaced.mp hm
      simp [hnone m hmraw hmip]
    unfold NodeDiscovery.discoverNodeIP
    rw [surfaced_eq, hsurf]
    rw [hsurf] at hfind
    simp only [NodeDiscovery.findOldestHealthyNode, hfind, Option.getD_none]
  · intro hipempty hcache hne hnone now
    have hfast : ¬(stG.currentNodeIP != "" && now - stG.cacheTime < 120) = true := by
      simp [hipempty]
    have hfind : GenericNodeDiscovery.findOldestHealthyNode rawsG = none := by
      unfold GenericNodeDiscovery.findOldestHealthyNode
      have : rawsG.filter (fun n => n.status == NodeStatus.healthy) = [] := by
        rw [List.filter_eq_nil_iff]
        intro m hm
        simp [hnone m hm]
      rw [this]
      rfl
    unfold GenericNodeDiscovery.discoverNodeIP
    rw [if_neg hfast]
    unfold GenericNodeDiscovery.getAllNodesWithMetadata
    rw [if_neg (by simp [hcache])]
    cases hr : rawsG with
    | nil => exact absurd hr hne
    | cons r rs =>
      rw [hr] at hfind
      simp only [hfind]
  · intro hnone hne now
    have hfind : (surfacedNodes raws).find?
        (fun n => n.status == NodeStatus.healthy) = none := by
      rw [List.find?_eq_none]
      intro m hm
      obtain ⟨hmraw, hmip⟩ := mem_surfaced.mp hm
      simp [hnone m hmraw hmip]
    cases hsurf : surfacedNodes raws with
    | nil => exact absurd hsurf hne
    | cons n0 rest =>
      unfold EKSNodeDiscovery.discoverNodeIP EKSNodeDiscovery.getAllNodesWithMetadata
      rw [surfaced_eq, hsurf]
      rw [hsurf] at hfind
      simp only [EKSNodeDiscovery.findOldestHealthyNode, hfind]

def genEmptyState : GenericNodeDiscovery.State :=
  { cachedNodes := [], cacheTime := 0, currentNodeName := "",
    currentNodeIP := "", failureCount := 0, lastCheck := 0 }

def eksEmptyState : EKSNodeDiscovery.State :=
  { cachedNodes := [], cacheTime := 0, currentNodeName := "",
    currentNodeIP := "", failureCount := 0, lastCheck := 0 }

/-- C1 witness: the amended selection theorem applied at concrete inputs,
discharging the healthy-exists branch and both no-healthy error branches. -/
theorem discoverNodeIP_selects_oldest_healthy_witness :
    ((∃ n ∈ [nodeU, nodeA], n.ip ≠ "" ∧ n.status = NodeStatus.healthy) ∧
      ∃ c, c ∈ [nodeU, nodeA] ∧ c.ip ≠ "" ∧ c.status = NodeStatus.healthy ∧
        (∀ m ∈ [nodeU, nodeA], m.ip ≠ "" → m.status = NodeStatus.healthy →
          c.creationTime ≤ m.creationTime) ∧
        NodeDiscovery.discoverNodeIP gkeEmptyState (.ok [nodeU, nodeA]) =
          .ok (c.ip,
            { gkeEmptyState with cachedNodes := surfacedNodes [nodeU, nodeA],
                                 currentNodeName := c.name })) ∧
    GenericNodeDiscovery.discoverNodeIP genEmptyState (.ok [nodeU]) 0 =
      .error "no healthy nodes found" ∧
    EKSNodeDiscovery.discoverNodeIP eksEmptyState (.ok [nodeU]) 0 =
      .error "no healthy nodes found" := by
  have h := discoverNodeIP_selects_oldest_healthy gkeEmptyState genEmptyState
    eksEmptyState [nodeU, nodeA] [nodeU]
  have h' := discoverNodeIP_selects_oldest_healthy gkeEmptyState genEmptyState
    eksEmptyState [nodeU] [nodeU]
  refine ⟨⟨⟨nodeA, by decide, by decide, rfl⟩, ?_⟩, ?_, ?_⟩
  · exact h.2.1 ⟨nodeA, by decide, by decide, rfl⟩
  · exact h.2.2.2.1 rfl rfl (by decide) (by decide) 0
  · exact h'.2.2.2.2 (by decide) (by decide) 0

/-- C1 counterexample: with two Healthy nodes of equal creation time listed
as `b` then `a`, selection returns `b` (list order after the stable sort),
not the name-ascending `a`; and with a single Unhealthy node the GKE
`discoverNodeIP` returns that node's IP instead of the "no candidate"
error the claim requires. -/
theorem discoverNodeIP_selects_oldest_healthy_counterexample :
    (NodeDiscovery.discoverNodeIP gkeEmptyState (.ok [nodeB, nodeA])).toOption.map
        (fun r => r.1) = some "10.0.0.2" ∧
    nodeB.creationTime = nodeA.creationTime ∧
    nodeA.status = NodeStatus.healthy ∧ nodeB.status = NodeStatus.healthy ∧
    nodeA.name = "a" ∧ nodeB.name = "b" ∧ nodeA.ip ≠ nodeB.ip ∧
    (NodeDiscovery.discoverNodeIP gkeEmptyState (.ok [nodeU])).toOption.map
        (fun r => r.1) = some "10.0.0.9" ∧
    nodeU.status = NodeStatus.unhealthy := by
  decide

/-!
## C2 — failover switches to the oldest other healthy node
-/

/-- C2: whenever the fresh node list contains a Healthy record whose name
differs from the current node, each `performFailover` switches the slot's
name and IP to such a record of minimum creation time, and the
consecutive-failure counter ends at 0 (for the GKE flavour through the
enclosing `handleNodeFailure`, for the Generic and EKS flavours inside
`performFailover` itself). -/
theorem performFailover_picks_oldest_other_healthy
    (st : NodeDiscovery.State) (stG : GenericNodeDiscovery.State)
    (stE : EKSNodeDiscovery.State) (raws rawsG : List NodeInfo) (now : Nat) :
    ((∃ n ∈ raws, n.ip ≠ "" ∧ n.status = NodeStatus.healthy ∧
        n.name ≠ st.currentNodeName) →
      ∃ c, c ∈ raws ∧ c.ip ≠ "" ∧ c.status = NodeStatus.healthy ∧
        c.name ≠ st.currentNodeName ∧
        (∀ m ∈ raws, m.ip ≠ "" → m.status = NodeStatus.healthy →
          m.name ≠ st.currentNodeName → c.creationTime ≤ m.creationTime) ∧
        NodeDiscovery.performFailover st (.ok raws) now =
          { st with cachedIP := c.ip, currentNodeName := c.name,
                    cacheTime := now }) ∧
    (st.failureCount + 1 ≥ 3 →
      (NodeDiscovery.handleNodeFailure st (.ok raws) now).failureCount = 0) ∧
    (stG.cachedNodes = [] →
      (∃ n ∈ rawsG, n.status = NodeStatus.healthy ∧
        n.name ≠ stG.currentNodeName) →
      ∃ c, c ∈ rawsG ∧ c.status = NodeStatus.healthy ∧
        c.name ≠ stG.currentNodeName ∧
        (∀ m ∈ rawsG, m.status = NodeStatus.healthy →
          m.name ≠ stG.currentNodeName → c.creationTime ≤ m.creationTime) ∧
        GenericNodeDiscovery.performFailover stG (.ok rawsG) now =
          { stG with cachedNodes := rawsG, cacheTime := now,
                     currentNodeName := c.name, currentNodeIP := c.ip,
                     failureCount := 0, lastCheck := now }) ∧
    ((∃ n ∈ raws, n.ip ≠ "" ∧ n.status = NodeStatus.healthy ∧
        n.name ≠ stE.currentNodeName) →
      ∃ c, c ∈ raws ∧ c.ip ≠ "" ∧ c.status = NodeStatus.healthy ∧
        c.name ≠ stE.currentNodeName ∧
        (∀ m ∈ raws, m.ip ≠ "" → m.status = NodeStatus.healthy →
          m.name ≠ stE.currentNodeName → c.creationTime ≤ m.creationTime) ∧
        EKSNodeDiscovery.performFailover stE (.ok raws) now =
          { stE with currentNodeName := c.name, currentNodeIP := c.ip,
                     failureCount := 0, lastCheck := now }) := by
  have hsorted : (surfacedNodes raws).Sorted leCreation :=
    sortByCreation_sorted _
  refine ⟨?_, ?_, ?_, ?_⟩
  · rintro ⟨n, hn, hip, hstat, hname⟩
    have hnsurf : n ∈ surfacedNodes raws := mem_surfaced.mpr ⟨hn, hip⟩
    have hpn : (n.name != st.currentNodeName &&
        n.status == NodeStatus.healthy) = true := by
      simp [hname, hstat]
    obtain ⟨c, hc⟩ := find?_exists
      (p := fun m => m.name != st.currentNodeName && m.status == NodeStatus.healthy)
      hnsurf hpn
    have hcp := List.find?_some hc
    rw [Bool.and_eq_true] at hcp
    have hcname : c.name ≠ st.currentNodeName := by
      simpa [bne_iff_ne] using hcp.1
    have hcstat : c.status = NodeStatus.healthy := by
      simpa using hcp.2
    obtain ⟨hcraw, hcip⟩ := mem_surfaced.mp (List.mem_of_find?_eq_some hc)
    refine ⟨c, hcraw, hcip, hcstat, hcname, ?_, ?_⟩
    · intro m hm hmip hms hmn
      exact find?_creation_min hsorted hc m (mem_surfaced.mpr ⟨hm, hmip⟩)
        (by simp [hmn, hms])
    · simp only [NodeDiscovery.performFailover, surfaced_eq]
      simp only [hc]
  · intro hth
    simp only [NodeDiscovery.handleNodeFailure, if_pos hth]
  · rintro hcache ⟨n, hn, hstat, hname⟩
    have hpn : (n.status == NodeStatus.healthy &&
        n.name != stG.currentNodeName) = true := by
      simp [hname, hstat]
    have hmemf : n ∈ rawsG.filter
        (fun n => n.status == NodeStatus.healthy &&
          n.name != stG.currentNodeName) :=
      List.mem_filter.mpr ⟨hn, hpn⟩
    have hfe : rawsG.filter
        (fun n => n.status == NodeStatus.healthy &&
          n.name != stG.currentNodeName) ≠ [] := by
      intro hnil
      rw [hnil] at hmemf
      cases hmemf
    have hsome := minFold_isSome _ none hfe
    cases hsel : (rawsG.filter
        (fun n => n.status == NodeStatus.healthy &&
          n.name != stG.currentNodeName)).foldl minStep none with
    | none => rw [hsel] at hsome; cases hsome
    | some c =>
      have hcmem : c ∈ rawsG.filter
          (fun n => n.status == NodeStatus.healthy &&
            n.name != stG.currentNodeName) := by
        rcases minFold_mem _ none c hsel with hm | hbad
        · exact hm
        · cases hbad
      have hcp := (List.mem_filter.mp hcmem).2
      have hcraw := (List.mem_filter.mp hcmem).1
      rw [Bool.and_eq_true] at hcp
      have hcstat : c.status = NodeStatus.healthy := by
        simpa using hcp.1
      have hcname : c.name ≠ stG.currentNodeName := by
        simpa [bne_iff_ne] using hcp.2
      refine ⟨c, hcraw, hcstat, hcname, ?_, ?_⟩
      · intro m hm hms hmn
        exact (minFold_min _ none c hsel).1 m
          (List.mem_filter.mpr ⟨hm, by simp [hms, hmn]⟩)
      · simp only [GenericNodeDiscovery.performFailover,
          GenericNodeDiscovery.getAllNodesWithMetadata, hcache,
          List.isEmpty_nil, Bool.not_true, Bool.false_and, Bool.false_eq_true,
          if_false]
        simp only [GenericNodeDiscovery.performFailoverWith,
          GenericNodeDiscovery.selectFailoverCandidate]
        rw [pick_eq_filter_min]
        simp only [hsel]
  · rintro ⟨n, hn, hip, hstat, hname⟩
    have hnsurf : n ∈ surfacedNodes raws := mem_surfaced.mpr ⟨hn, hip⟩
    have hpn : (n.name != stE.currentNodeName &&
        n.status == NodeStatus.healthy) = true := by
      simp [hname, hstat]
    have hnc : n ∈ (surfacedNodes raws).filter
        (fun n => n.name != stE.currentNodeName &&
          n.status == NodeStatus.healthy) :=
      List.mem_filter.mpr ⟨hnsurf, hpn⟩
    have hcsorted : ((surfacedNodes raws).filter
        (fun n => n.name != stE.currentNodeName &&
          n.status == NodeStatus.healthy)).Sorted leCreation :=
      sorted_filter hsorted _
    obtain ⟨c, hc⟩ := find?_exists (p := fun n => n.status == NodeStatus.healthy)
      hnc (by simp [hstat])
    have hcmemc := List.mem_of_find?_eq_some hc
    have hccand := (List.mem_filter.mp hcmemc).2
    rw [Bool.and_eq_true] at hccand
    obtain ⟨hcraw, hcip⟩ := mem_surfaced.mp (List.mem_filter.mp hcmemc).1
    have hcstat : c.status = NodeStatus.healthy := by
      have := List.find?_some hc
      simpa using this
    have hcname : c.name ≠ stE.currentNodeName := by
      simpa [bne_iff_ne] using hccand.1
    refine ⟨c, hcraw, hcip, hcstat, hcname, ?_, ?_⟩
    · intro m hm hmip hms hmn
      exact find?_creation_min hcsorted hc m
        (List.mem_filter.mpr ⟨mem_surfaced.mpr ⟨hm, hmip⟩, by simp [hmn, hms]⟩)
        (by simp [hms])
    · cases hcand : (surfacedNodes raws).filter
          (fun n => n.name != stE.currentNodeName &&
            n.status == NodeStatus.healthy) with
      | nil => rw [hcand] at hnc; cases hnc
      | cons c0 crest =>
        simp only [EKSNodeDiscovery.performFailover,
          EKSNodeDiscovery.getAllNodesWithMetadata, surfaced_eq]
        rw [hcand] at hc
        simp only [hcand, EKSNodeDiscovery.findOldestHealthyNode, hc]

def gkeCurrentState : NodeDiscovery.State :=
  { cachedIP := "10.0.0.9", cachedNodes := [], currentNodeName := "n1",
    cacheTime := 40, failureCount := 2 }

def genCurrentState : GenericNodeDiscovery.State :=
  { cachedNodes := [], cacheTime := 0, currentNodeName := "n1",
    currentNodeIP := "10.0.0.9", failureCount := 3, lastCheck := 40 }

def eksCurrentState : EKSNodeDiscovery.State :=
  { cachedNodes := [], cacheTime := 0, currentNodeName := "n1",
    currentNodeIP := "10.0.0.9", failureCount := 3, lastCheck := 40 }

/-- C2 witness: the failover theorem applied with current node `n1` and a
fresh list offering the healthy node `n2`. -/
theorem performFailover_picks_oldest_other_healthy_witness :
    (∃ n ∈ [nodeU, nodeFresh], n.ip ≠ "" ∧ n.status = NodeStatus.healthy ∧
      n.name ≠ gkeCurrentState.currentNodeName) ∧
    (∃ c, c ∈ [nodeU, nodeFresh] ∧ c.ip ≠ "" ∧ c.status = NodeStatus.healthy ∧
      c.name ≠ gkeCurrentState.currentNodeName ∧
      (∀ m ∈ [nodeU, nodeFresh], m.ip ≠ "" → m.status = NodeStatus.healthy →
        m.name ≠ gkeCurrentState.currentNodeName →
        c.creationTime ≤ m.creationTime) ∧
      NodeDiscovery.performFailover gkeCurrentState (.ok [nodeU, nodeFresh]) 100 =
        { gkeCurrentState with cachedIP := c.ip, currentNodeName := c.name,
                               cacheTime := 100 }) ∧
    gkeCurrentState.failureCount + 1 ≥ 3 ∧
    (NodeDiscovery.handleNodeFailure gkeCurrentState
      (.ok [nodeU, nodeFresh]) 100).failureCount = 0 ∧
    (∃ c, c ∈ [nodeU, nodeFresh] ∧ c.status = NodeStatus.healthy ∧
      c.name ≠ genCurrentState.currentNodeName ∧
      (∀ m ∈ [nodeU, nodeFresh], m.status = NodeStatus.healthy →
        m.name ≠ genCurrentState.currentNodeName →
        c.creationTime ≤ m.creationTime) ∧
      GenericNodeDiscovery.performFailover genCurrentState
          (.ok [nodeU, nodeFresh]) 100 =
        { genCurrentState with cachedNodes := [nodeU, nodeFresh],
                               cacheTime := 100, currentNodeName := c.name,
                               currentNodeIP := c.ip, failureCount := 0,
                               lastCheck := 100 }) ∧
    (∃ c, c ∈ [nodeU, nodeFresh] ∧ c.ip ≠ "" ∧ c.status = NodeStatus.healthy ∧
      c.name ≠ eksCurrentState.currentNodeName ∧
      (∀ m ∈ [nodeU, nodeFresh], m.ip ≠ "" → m.status = NodeStatus.healthy →
        m.name ≠ eksCurrentState.currentNodeName →
        c.creationTime ≤ m.creationTime) ∧
      EKSNodeDiscovery.performFailover eksCurrentState
          (.ok [nodeU, nodeFresh]) 100 =
        { eksCurrentState with currentNodeName := c.name,
                               currentNodeIP := c.ip, failureCount := 0,
                               lastCheck := 100 }) := by
  have h := performFailover_picks_oldest_other_healthy gkeCurrentState
    genCurrentState eksCurrentState [nodeU, nodeFresh] [nodeU, nodeFresh] 100
  have hypK : ∃ n ∈ [nodeU, nodeFresh], n.ip ≠ "" ∧
      n.status = NodeStatus.healthy ∧ n.name ≠ gkeCurrentState.currentNodeName :=
    ⟨nodeFresh, by decide, by decide, rfl, by decide⟩
  have hypG : ∃ n ∈ [nodeU, nodeFresh], n.status = NodeStatus.healthy ∧
      n.name ≠ genCurrentState.currentNodeName :=
    ⟨nodeFresh, by decide, rfl, by decide⟩
  have hypE : ∃ n ∈ [nodeU, nodeFresh], n.ip ≠ "" ∧
      n.status = NodeStatus.healthy ∧ n.name ≠ eksCurrentState.currentNodeName :=
    ⟨nodeFresh, by decide, by decide, rfl, by decide⟩
  exact ⟨hypK, h.1 hypK, by decide, h.2.1 (by decide),
    h.2.2.1 rfl hypG, h.2.2.2 hypE⟩

/-!
## C3 — failed failover and the selection slot
-/

/-- C3 (amended): when the node-list fetch fails or no candidate exists, the
Generic `performFailover` leaves the whole state — in particular the current
node name, the cached IP and the probe timestamp — unchanged; the GKE
`performFailover`, however, clears `cachedIP` and zeroes `cacheTime` on
entry, so after a failed failover the name is unchanged but the cached IP
and cache timestamp are cleared, not preserved. -/
theorem performFailover_failure_slot
    (st : NodeDiscovery.State) (stG : GenericNodeDiscovery.State)
    (raws nodes : List NodeInfo) (e : String) (now : Nat) :
    (stG.cachedNodes = [] →
      GenericNodeDiscovery.performFailover stG (.error e) now = stG) ∧
    ((∀ n ∈ nodes, n.status = NodeStatus.healthy →
        n.name = stG.currentNodeName) →
      GenericNodeDiscovery.performFailoverWith stG nodes now = stG) ∧
    (NodeDiscovery.performFailover st (.error e) now =
      { st with cachedIP := "", cacheTime := 0 }) ∧
    ((∀ n ∈ raws, n.ip ≠ "" → n.status = NodeStatus.healthy →
        n.name = st.currentNodeName) →
      NodeDiscovery.performFailover st (.ok raws) now =
        { st with cachedIP := "", cacheTime := 0 }) := by
  refine ⟨?_, ?_, ?_, ?_⟩
  · intro hcache
    simp only [GenericNodeDiscovery.performFailover,
      GenericNodeDiscovery.getAllNodesWithMetadata, hcache,
      List.isEmpty_nil, Bool.not_true, Bool.false_and, Bool.false_eq_true,
      if_false]
  · intro hnone
    have hsel : GenericNodeDiscovery.selectFailoverCandidate
        stG.currentNodeName nodes = none := by
      unfold GenericNodeDiscovery.selectFailoverCandidate
      rw [pick_eq_filter_min]
      have : nodes.filter
          (fun n => n.status == NodeStatus.healthy &&
            n.name != stG.currentNodeName) = [] := by
        rw [List.filter_eq_nil_iff]
        intro m hm
        by_cases hms : m.status = NodeStatus.healthy
        · simp [hnone m hm hms]
        · simp [hms]
      rw [this]
      rfl
    simp only [GenericNodeDiscovery.performFailoverWith, hsel]
  · rfl
  · intro hnone
    have hfind : (surfacedNodes raws).find?
        (fun n => n.name != st.currentNodeName &&
          n.status == NodeStatus.healthy) = none := by
      rw [List.find?_eq_none]
      intro m hm
      obtain ⟨hmraw, hmip⟩ := mem_surfaced.mp hm
      by_cases hms : m.status = NodeStatus.healthy
      · simp [hnone m hmraw hmip hms]
      · simp [hms]
    simp only [NodeDiscovery.performFailover, surfaced_eq, hfind]

/-- C3 witness: both no-candidate shapes at concrete inputs (the only
healthy record carries the current name). -/
theorem performFailover_failure_slot_witness :
    genCurrentState.cachedNodes = [] ∧
    GenericNodeDiscovery.performFailover genCurrentState (.error "boom") 7 =
      genCurrentState ∧
    (∀ n ∈ [nodeU], n.status = NodeStatus.healthy →
      n.name = genCurrentState.currentNodeName) ∧
    GenericNodeDiscovery.performFailoverWith genCurrentState [nodeU] 7 =
      genCurrentState ∧
    (∀ n ∈ [nodeU], n.ip ≠ "" → n.status = NodeStatus.healthy →
      n.name = gkeCurrentState.currentNodeName) ∧
    NodeDiscovery.performFailover gkeCurrentState (.ok [nodeU]) 7 =
      { gkeCurrentState with cachedIP := "", cacheTime := 0 } := by
  have h := performFailover_failure_slot gkeCurrentState genCurrentState
    [nodeU] [nodeU] "boom" 7
  exact ⟨rfl, h.1 rfl, by decide, h.2.1 (by decide), by decide,
    h.2.2.2 (by decide)⟩

/-- C3 counterexample: a GKE failover whose fetch fails does not leave the
slot unchanged — the cached IP `10.0.0.9` is wiped to `""` and the cache
timestamp is zeroed. -/
theorem performFailover_failure_slot_counterexample :
    (NodeDiscovery.performFailover gkeCurrentState
        (.error "boom") 60).currentNodeName = gkeCurrentState.currentNodeName ∧
    (NodeDiscovery.performFailover gkeCurrentState
        (.error "boom") 60).cachedIP = "" ∧
    gkeCurrentState.cachedIP = "10.0.0.9" ∧
    (NodeDiscovery.performFailover gkeCurrentState
        (.error "boom") 60).cacheTime = 0 ∧
    gkeCurrentState.cacheTime = 40 := by
  decide

/-!
## C4 — when the failure counter is reset
-/

/-- C4 (amended): `consecutiveFailures` is 0 after any probe that finds the
current node Ready and after any successful failover, in all three
variants; the Generic flavour resets it in no other case (a failover
attempt with a failed fetch or without a candidate leaves the incremented
counter in place), but the GKE `handleNodeFailure` additionally zeroes the
counter after *any* failover attempt that reached the threshold, including
one that found no candidate or whose fetch failed. -/
theorem failure_counter_reset
    (st : NodeDiscovery.State) (stG : GenericNodeDiscovery.State)
    (stE : EKSNodeDiscovery.State)
    (fetch : Except String (List NodeInfo)) (raws nodes : List NodeInfo)
    (e : String) (now : Nat) :
    (st.currentNodeName ≠ "" →
      (NodeDiscovery.performHealthCheck st true fetch now).failureCount = 0) ∧
    (stG.currentNodeName ≠ "" →
      (GenericNodeDiscovery.performHealthCheck stG (some true) fetch
        now).failureCount = 0) ∧
    (stE.currentNodeName ≠ "" →
      (EKSNodeDiscovery.performHealthCheck stE (some true) fetch
        now).failureCount = 0) ∧
    (∀ c, GenericNodeDiscovery.selectFailoverCandidate stG.currentNodeName
        nodes = some c →
      (GenericNodeDiscovery.performFailoverWith stG nodes now).failureCount = 0) ∧
    (stG.cachedNodes = [] →
      (∀ n ∈ raws, n.status = NodeStatus.healthy →
        n.name = stG.currentNodeName) →
      (GenericNodeDiscovery.handleNodeFailure stG (.ok raws) now).failureCount =
        stG.failureCount + 1) ∧
    (stG.cachedNodes = [] →
      (GenericNodeDiscovery.handleNodeFailure stG (.error e) now).failureCount =
        stG.failureCount + 1) ∧
    (st.failureCount + 1 ≥ 3 →
      (NodeDiscovery.handleNodeFailure st fetch now).failureCount = 0) := by
  refine ⟨?_, ?_, ?_, ?_, ?_, ?_, ?_⟩
  · intro hname
    simp only [NodeDiscovery.performHealthCheck, if_neg hname]
    simp [NodeDiscovery.updateCurrentNodeLastCheck]
  · intro hname
    simp only [GenericNodeDiscovery.performHealthCheck, if_neg hname]
    simp [GenericNodeDiscovery.updateCurrentNodeLastCheck]
  · intro hname
    simp only [EKSNodeDiscovery.performHealthCheck, if_neg hname]
    simp [EKSNodeDiscovery.updateCurrentNodeLastCheck]
  · intro c hsel
    simp only [GenericNodeDiscovery.performFailoverWith, hsel]
  · intro hcache hnone
    have hfilter : raws.filter
        (fun n => n.status == NodeStatus.healthy &&
          n.name != stG.currentNodeName) = [] := by
      rw [List.filter_eq_nil_iff]
      intro m hm
      by_cases hms : m.status = NodeStatus.healthy
      · simp [hnone m hm hms]
      · simp [hms]
    unfold GenericNodeDiscovery.handleNodeFailure
    by_cases hth : stG.failureCount + 1 ≥ 3
    · simp only [if_pos hth]
      simp only [GenericNodeDiscovery.performFailover,
        GenericNodeDiscovery.getAllNodesWithMetadata, hcache,
        List.isEmpty_nil, Bool.not_true, Bool.false_and, Bool.false_eq_true,
        if_false]
      simp only [GenericNodeDiscovery.performFailoverWith,
        GenericNodeDiscovery.selectFailoverCandidate]
      rw [pick_eq_filter_min, hfilter]
      rfl
    · simp only [if_neg hth]
  · intro hcache
    unfold GenericNodeDiscovery.handleNodeFailure
    by_cases hth : stG.failureCount + 1 ≥ 3
    · simp only [if_pos hth]
      simp only [GenericNodeDiscovery.performFailover,
        GenericNodeDiscovery.getAllNodesWithMetadata, hcache,
        List.isEmpty_nil, Bool.not_true, Bool.false_and, Bool.false_eq_true,
        if_false]
    · simp only [if_neg hth]
  · intro hth
    simp only [NodeDiscovery.handleNodeFailure, if_pos hth]

/-- C4 witness: each reset / no-reset branch exercised at concrete states
(current node `n1`, counter 3 for the Generic state, 2 for the GKE one). -/
theorem failure_counter_reset_witness :
    gkeCurrentState.currentNodeName ≠ "" ∧
    (NodeDiscovery.performHealthCheck gkeCurrentState true (.ok []) 100).failureCount = 0 ∧
    (GenericNodeDiscovery.performHealthCheck genCurrentState (some true)
      (.ok []) 100).failureCount = 0 ∧
    (EKSNodeDiscovery.performHealthCheck eksCurrentState (some true)
      (.ok []) 100).failureCount = 0 ∧
    GenericNodeDiscovery.selectFailoverCandidate genCurrentState.currentNodeName
      [nodeFresh] = some nodeFresh ∧
    (GenericNodeDiscovery.performFailoverWith genCurrentState [nodeFresh]
      100).failureCount = 0 ∧
    (GenericNodeDiscovery.handleNodeFailure genCurrentState (.ok [nodeU])
      100).failureCount = genCurrentState.failureCount + 1 ∧
    (GenericNodeDiscovery.handleNodeFailure genCurrentState (.error "boom")
      100).failureCount = genCurrentState.failureCount + 1 ∧
    gkeCurrentState.failureCount + 1 ≥ 3 ∧
    (NodeDiscovery.handleNodeFailure gkeCurrentState (.ok []) 100).failureCount = 0 := by
  have h := failure_counter_reset gkeCurrentState genCurrentState eksCurrentState
    (.ok []) [nodeU] [nodeFresh] "boom" 100
  exact ⟨by decide, h.1 (by decide), h.2.1 (by decide), h.2.2.1 (by decide),
    by decide, h.2.2.2.1 nodeFresh (by decide), h.2.2.2.2.1 rfl (by decide),
    h.2.2.2.2.2.1 rfl, by decide, h.2.2.2.2.2.2 (by decide)⟩

/-- C4 counterexample: with the counter at 2, current node `n1`, a
not-Ready probe and a fresh list offering no candidate (its only record is
`n1` itself, Unhealthy), the GKE health-check step ends with
`failureCount = 0` although no probe found the node Ready and no failover
succeeded (the current name is unchanged). -/
theorem failure_counter_reset_counterexample :
    gkeCurrentState.failureCount = 2 ∧
    nodeU.name = gkeCurrentState.currentNodeName ∧
    nodeU.status = NodeStatus.unhealthy ∧
    (NodeDiscovery.performHealthCheck gkeCurrentState false
      (.ok [nodeU]) 100).failureCount = 0 ∧
    (NodeDiscovery.performHealthCheck gkeCurrentState false
      (.ok [nodeU]) 100).currentNodeName = gkeCurrentState.currentNodeName := by
  decide

/-!
## C5 — the current-IP operation and its caches
-/

theorem genericDiscover_no_healthy {stG : GenericNodeDiscovery.State}
    {raws : List NodeInfo} (now : Nat) (hip : stG.currentNodeIP = "")
    (hcache : stG.cachedNodes = []) (hne : raws ≠ [])
    (hnone : ∀ n ∈ raws, n.status ≠ NodeStatus.healthy) :
    GenericNodeDiscovery.discoverNodeIP stG (.ok raws) now =
      .error "no healthy nodes found" := by
  have hfind : GenericNodeDiscovery.findOldestHealthyNode raws = none := by
    unfold GenericNodeDiscovery.findOldestHealthyNode
    have : raws.filter (fun n => n.status == NodeStatus.healthy) = [] := by
      rw [List.filter_eq_nil_iff]
      intro m hm
      simp [hnone m hm]
    rw [this]
    rfl
  unfold GenericNodeDiscovery.discoverNodeIP
  rw [if_neg (by simp [hip])]
  unfold GenericNodeDiscovery.getAllNodesWithMetadata
  rw [if_neg (by simp [hcache])]
  cases hr : raws with
  | nil => exact absurd hr hne
  | cons r rs =>
    rw [hr] at hfind
    simp only [hfind]

theorem eksDiscover_no_healthy {stE : EKSNodeDiscovery.State}
    {raws : List NodeInfo} (now : Nat)
    (hnone : ∀ n ∈ raws, n.ip ≠ "" → n.status ≠ NodeStatus.healthy)
    (hne : surfacedNodes raws ≠ []) :
    EKSNodeDiscovery.discoverNodeIP stE (.ok raws) now =
      .error "no healthy nodes found" := by
  have hfind : (surfacedNodes raws).find?
      (fun n => n.status == NodeStatus.healthy) = none := by
    rw [List.find?_eq_none]
    intro m hm
    obtain ⟨hmraw, hmip⟩ := mem_surfaced.mp hm
    simp [hnone m hmraw hmip]
  cases hsurf : surfacedNodes raws with
  | nil => exact absurd hsurf hne
  | cons n0 rest =>
    unfold EKSNodeDiscovery.discoverNodeIP EKSNodeDiscovery.getAllNodesWithMetadata
    rw [surfaced_eq, hsurf]
    rw [hsurf] at hfind
    simp only [EKSNodeDiscovery.findOldestHealthyNode, hfind]

theorem gkeDiscover_fallback {st : NodeDiscovery.State}
    {raws : List NodeInfo}
    (hnone : ∀ n ∈ raws, n.ip ≠ "" → n.status ≠ NodeStatus.healthy)
    {c : NodeInfo} {rest : List NodeInfo}
    (hsurf : surfacedNodes raws = c :: rest) :
    NodeDiscovery.discoverNodeIP st (.ok raws) =
      .ok (c.ip, { st with cachedNodes := surfacedNodes raws,
                           currentNodeName := c.name }) := by
  have hfind : (surfacedNodes raws).find?
      (fun n => n.status == NodeStatus.healthy) = none := by
    rw [List.find?_eq_none]
    intro m hm
    obtain ⟨hmraw, hmip⟩ := mem_surfaced.mp hm
    simp [hnone m hmraw hmip]
  unfold NodeDiscovery.discoverNodeIP
  rw [surfaced_eq, hsurf]
  rw [hsurf] at hfind
  simp only [NodeDiscovery.findOldestHealthyNode, hfind, Option.getD_none]

/-- C5 (amended): the GKE `GetCurrentNodeIP` serves the cached IP, without
consulting the cluster, whenever the cache is younger than the 2-minute
`cacheTTL` (not a 30-second window); the Generic and EKS variants serve the
cached IP when the last probe is younger than 30 seconds, and the Generic
`discoverNodeIP` additionally re-serves the previous selection while it is
younger than the 2-minute TTL.  A fresh selection with no Healthy node
yields an error in the Generic and EKS variants, while the GKE variant
returns the IP of the oldest node regardless of status. -/
theorem GetCurrentNodeIP_cache_amended
    (st : NodeDiscovery.State) (stG : GenericNodeDiscovery.State)
    (stE : EKSNodeDiscovery.State)
    (fetch : Except String (List NodeInfo)) (raws : List NodeInfo)
    (now : Nat) :
    (st.cachedIP ≠ "" → now - st.cacheTime < 120 →
      NodeDiscovery.GetCurrentNodeIP st fetch now = .ok (st.cachedIP, st)) ∧
    (stG.currentNodeIP ≠ "" → now - stG.lastCheck < 30 →
      GenericNodeDiscovery.GetCurrentNodeIP stG fetch now =
        .ok (stG.currentNodeIP, stG)) ∧
    (stE.currentNodeIP ≠ "" → now - stE.lastCheck < 30 →
      EKSNodeDiscovery.GetCurrentNodeIP stE fetch now =
        .ok (stE.currentNodeIP, stE)) ∧
    (stG.currentNodeIP ≠ "" → now - stG.cacheTime < 120 →
      GenericNodeDiscovery.discoverNodeIP stG fetch now =
        .ok (stG.currentNodeIP, { stG with lastCheck := now })) ∧
    (stG.currentNodeIP = "" → stG.cachedNodes = [] → raws ≠ [] →
      (∀ n ∈ raws, n.status ≠ NodeStatus.healthy) →
      GenericNodeDiscovery.GetCurrentNodeIP stG (.ok raws) now =
        .error "no healthy nodes found") ∧
    (stE.currentNodeIP = "" →
      (∀ n ∈ raws, n.ip ≠ "" → n.status ≠ NodeStatus.healthy) →
      surfacedNodes raws ≠ [] →
      EKSNodeDiscovery.GetCurrentNodeIP stE (.ok raws) now =
        .error "no healthy nodes found") ∧
    (st.cachedIP = "" →
      (∀ n ∈ raws, n.ip ≠ "" → n.status ≠ NodeStatus.healthy) →
      ∀ c rest, surfacedNodes raws = c :: rest →
      NodeDiscovery.GetCurrentNodeIP st (.ok raws) now =
        .ok (c.ip, { st with cachedIP := c.ip,
                             cachedNodes := surfacedNodes raws,
                             currentNodeName := c.name,
                             cacheTime := now })) := by
  refine ⟨?_, ?_, ?_, ?_, ?_, ?_, ?_⟩
  · intro hip hlt
    unfold NodeDiscovery.GetCurrentNodeIP
    rw [if_pos (by simp [hip, hlt])]
  · intro hip hlt
    unfold GenericNodeDiscovery.GetCurrentNodeIP
    rw [if_pos (by simp [hip, hlt])]
  · intro hip hlt
    unfold EKSNodeDiscovery.GetCurrentNodeIP
    rw [if_pos (by simp [hip, hlt])]
  · intro hip hlt
    unfold GenericNodeDiscovery.discoverNodeIP
    rw [if_pos (by simp [hip, hlt])]
  · intro hip hcache hne hnone
    unfold GenericNodeDiscovery.GetCurrentNodeIP
    rw [if_neg (by simp [hip])]
    exact genericDiscover_no_healthy now hip hcache hne hnone
  · intro hip hnone hne
    unfold EKSNodeDiscovery.GetCurrentNodeIP
    rw [if_neg (by simp [hip])]
    exact eksDiscover_no_healthy now hnone hne
  · intro hip hnone c rest hsurf
    unfold NodeDiscovery.GetCurrentNodeIP
    rw [if_neg (by simp [hip])]
    rw [gkeDiscover_fallback hnone hsurf]

/-- GKE state with a cached IP probed 60 seconds ago (older than the claim's
30-second window, younger than the code's 2-minute TTL). -/
def gkeStaleCacheState : NodeDiscovery.State :=
  { cachedIP := "10.0.1.5", cachedNodes := [], currentNodeName := "n1",
    cacheTime := 0, failureCount := 0 }

/-- C5 witness: the cache-window theorem applied at concrete states, one per
branch. -/
theorem GetCurrentNodeIP_cache_amended_witness :
    gkeStaleCacheState.cachedIP ≠ "" ∧ 60 - gkeStaleCacheState.cacheTime < 120 ∧
    NodeDiscovery.GetCurrentNodeIP gkeStaleCacheState (.error "down") 60 =
      .ok ("10.0.1.5", gkeStaleCacheState) ∧
    genCurrentState.currentNodeIP ≠ "" ∧ 60 - genCurrentState.lastCheck < 30 ∧
    GenericNodeDiscovery.GetCurrentNodeIP genCurrentState (.error "down") 60 =
      .ok ("10.0.0.9", genCurrentState) ∧
    EKSNodeDiscovery.GetCurrentNodeIP eksCurrentState (.error "down") 60 =
      .ok ("10.0.0.9", eksCurrentState) ∧
    GenericNodeDiscovery.discoverNodeIP genCurrentState (.error "down") 100 =
      .ok ("10.0.0.9", { genCurrentState with lastCheck := 100 }) ∧
    GenericNodeDiscovery.GetCurrentNodeIP genEmptyState (.ok [nodeU]) 0 =
      .error "no healthy nodes found" ∧
    EKSNodeDiscovery.GetCurrentNodeIP eksEmptyState (.ok [nodeU]) 0 =
      .error "no healthy nodes found" ∧
    NodeDiscovery.GetCurrentNodeIP gkeEmptyState (.ok [nodeU]) 5 =
      .ok (nodeU.ip,
        { gkeEmptyState with
          cachedIP := nodeU.ip
          cachedNodes := surfacedNodes [nodeU]
          currentNodeName := nodeU.name
          cacheTime := 5 }) := by
  have h1 := GetCurrentNodeIP_cache_amended gkeStaleCacheState genCurrentState
    eksCurrentState (.error "down") [] 60
  have h2 := GetCurrentNodeIP_cache_amended gkeStaleCacheState genCurrentState
    eksCurrentState (.error "down") [] 100
  have h3 := GetCurrentNodeIP_cache_amended gkeEmptyState genEmptyState
    eksEmptyState (.ok [nodeU]) [nodeU] 0
  have h4 := GetCurrentNodeIP_cache_amended gkeEmptyState genEmptyState
    eksEmptyState (.ok [nodeU]) [nodeU] 5
  exact ⟨by decide, by decide, h1.1 (by decide) (by decide),
    by decide, by decide, h1.2.1 (by decide) (by decide),
    h1.2.2.1 (by decide) (by decide),
    h2.2.2.2.1 (by decide) (by decide),
    h3.2.2.2.2.1 rfl rfl (by decide) (by decide),
    h3.2.2.2.2.2.1 rfl (by decide) (by decide),
    h4.2.2.2.2.2.2 rfl (by decide) nodeU [] (by decide)⟩

/-- C5 counterexample: the cached IP `10.0.1.5` was recorded 60 seconds ago
— outside the claim's 30-second window — yet the GKE call still answers it
without consulting the cluster (even a failed fetch does not matter), and a
fresh selection would have produced `10.9.9.9` instead. -/
theorem GetCurrentNodeIP_cache_amended_counterexample :
    ¬(60 - gkeStaleCacheState.cacheTime < 30) ∧
    gkeStaleCacheState.cachedIP = "10.0.1.5" ∧
    (NodeDiscovery.GetCurrentNodeIP gkeStaleCacheState
      (.ok [nodeFresh]) 60).toOption = some ("10.0.1.5", gkeStaleCacheState) ∧
    (NodeDiscovery.GetCurrentNodeIP gkeStaleCacheState
      (.error "down") 60).toOption = some ("10.0.1.5", gkeStaleCacheState) ∧
    (NodeDiscovery.discoverNodeIP gkeStaleCacheState
      (.ok [nodeFresh])).toOption.map (fun r => r.1) = some "10.9.9.9" := by
  decide

/-!
## C6 — the monitor and an unselected slot
-/

/-- C6: when the current node name is empty, every `performHealthCheck`
variant returns immediately with the state unchanged — no selection is
invoked, whatever the probe outcome or the cluster's node list.  (This is
the `"No current node set, skip health check"` branch; it contradicts the
`"will retry via health monitoring"` log in `Server.Run`: after a failed
initial selection only a `GetCurrentNodeIP` caller, never the monitor, can
populate the slot.) -/
theorem performHealthCheck_skips_unselected
    (st : NodeDiscovery.State) (stG : GenericNodeDiscovery.State)
    (stE : EKSNodeDiscovery.State) (isHealthy : Bool) (probe : Option Bool)
    (fetch : Except String (List NodeInfo)) (now : Nat) :
    (st.currentNodeName = "" →
      NodeDiscovery.performHealthCheck st isHealthy fetch now = st) ∧
    (stG.currentNodeName = "" →
      GenericNodeDiscovery.performHealthCheck stG probe fetch now = stG) ∧
    (stE.currentNodeName = "" →
      EKSNodeDiscovery.performHealthCheck stE probe fetch now = stE) := by
  refine ⟨?_, ?_, ?_⟩
  · intro h
    simp only [NodeDiscovery.performHealthCheck, if_pos h]
  · intro h
    simp only [GenericNodeDiscovery.performHealthCheck, if_pos h]
  · intro h
    simp only [EKSNodeDiscovery.performHealthCheck, if_pos h]

/-- C6 witness: a monitor tick on the freshly-started (unselected) states,
with healthy nodes available in the cluster, changes nothing. -/
theorem performHealthCheck_skips_unselected_witness :
    gkeEmptyState.currentNodeName = "" ∧
    NodeDiscovery.performHealthCheck gkeEmptyState true (.ok [nodeA]) 15 =
      gkeEmptyState ∧
    GenericNodeDiscovery.performHealthCheck genEmptyState (some true)
      (.ok [nodeA]) 15 = genEmptyState ∧
    EKSNodeDiscovery.performHealthCheck eksEmptyState (some true)
      (.ok [nodeA]) 15 = eksEmptyState := by
  have h := performHealthCheck_skips_unselected gkeEmptyState genEmptyState
    eksEmptyState true (some true) (.ok [nodeA]) 15
  exact ⟨rfl, h.1 rfl, h.2.1 rfl, h.2.2 rfl⟩

/-!
## C7 — port preservation in the forwarded URL
-/

theorem lastIndexOf_eq_none {l : List Char} {c : Char} (h : c ∉ l) :
    Handler.lastIndexOf l c = none := by
  induction l with
  | nil => rfl
  | cons x xs ih =>
    have hx : x ≠ c := fun hxc => h (hxc ▸ List.mem_cons_self x xs)
    have hxs : c ∉ xs := fun hm => h (List.mem_cons_of_mem x hm)
    simp [Handler.lastIndexOf, ih hxs, hx]

theorem lastIndexOf_append_last {pre suf : List Char} {c : Char}
    (h : c ∉ suf) :
    Handler.lastIndexOf (pre ++ c :: suf) c = some pre.length := by
  induction pre with
  | nil =>
    simp [Handler.lastIndexOf, lastIndexOf_eq_none h]
  | cons x xs ih =>
    simp [Handler.lastIndexOf, ih]

theorem lastIndexOf_append_other {pre suf : List Char} {sep c : Char}
    (hsuf : c ∉ suf) (hsep : sep ≠ c) :
    Handler.lastIndexOf (pre ++ sep :: suf) c = Handler.lastIndexOf pre c := by
  induction pre with
  | nil =>
    simp [Handler.lastIndexOf, lastIndexOf_eq_none hsuf, hsep]
  | cons x xs ih =>
    simp only [List.cons_append, Handler.lastIndexOf, List.append_eq, ih]

theorem lastIndexOf_lt_length {l : List Char} {c : Char} {i : Nat}
    (h : Handler.lastIndexOf l c = some i) : i < l.length := by
  induction l generalizing i with
  | nil => cases h
  | cons x xs ih =>
    simp only [Handler.lastIndexOf] at h
    cases hxs : Handler.lastIndexOf xs c with
    | some j =>
      rw [hxs] at h
      cases h
      exact Nat.succ_lt_succ (ih hxs)
    | none =>
      rw [hxs] at h
      by_cases hx : x = c
      · rw [if_pos hx] at h
        cases h
        exact Nat.succ_pos _
      · rw [if_neg hx] at h
        cases h

theorem goAtoi_digits {seg : List Char} (hne : seg ≠ [])
    (hdig : seg.all Char.isDigit = true)
    (hlt : Handler.digitsToNat seg < 2 ^ 63) :
    Handler.goAtoi seg = some ((Handler.digitsToNat seg : Int)) := by
  cases seg with
  | nil => exact absurd rfl hne
  | cons d ds =>
    have hsplitdig : d.isDigit = true ∧ ds.all Char.isDigit = true := by
      have h := hdig
      rw [List.all_cons, Bool.and_eq_true] at h
      exact h
    have hd := hsplitdig.1
    have hdigs := hsplitdig.2
    have hdplus : d ≠ '+' := by
      intro hEq
      rw [hEq] at hd
      exact absurd hd (by decide)
    have hdminus : d ≠ '-' := by
      intro hEq
      rw [hEq] at hd
      exact absurd hd (by decide)
    have h63n : (2 : Nat) ^ 63 = 9223372036854775808 := by norm_num
    have h63i : (2 : Int) ^ 63 = 9223372036854775808 := by norm_num
    have hvc : (Handler.digitsToNat (d :: ds) : Int) < 9223372036854775808 := by
      have hvn : Handler.digitsToNat (d :: ds) < 9223372036854775808 :=
        h63n ▸ hlt
      exact_mod_cast hvn
    have hlow : -(2 : Int) ^ 63 ≤ (Handler.digitsToNat (d :: ds) : Int) := by
      rw [h63i]
      omega
    have hhigh : (Handler.digitsToNat (d :: ds) : Int) ≤ (2 : Int) ^ 63 - 1 := by
      rw [h63i]
      omega
    simp [Handler.goAtoi, hdplus, hdminus, hd, hdigs, hlow, hhigh]
    omega

/-- C7: a non-`/health` request with current node IP `ip` is forwarded to
exactly `http://ip:P<path>`, with `?<rawQuery>` appended exactly when the
raw query is non-empty, where `P = extractPort host`.  `extractPort` yields
`"80"` when the Host carries no colon, and yields the segment after the
last colon verbatim whenever that segment is a non-empty run of ASCII
digits (of value below 2^63) and the last colon is not hidden inside an
IPv6 bracket. -/
theorem forwarded_url_preserves_port
    (ip host path rawQuery : String) (pre seg : List Char) :
    (path ≠ "/health" →
      Handler.ServeHTTP (.ok ip) host path rawQuery =
        .forwardTo ("http://" ++ ip ++ ":" ++ Handler.extractPort host ++
          path ++ (if rawQuery != "" then "?" ++ rawQuery else ""))) ∧
    (host.data.contains ':' = false → Handler.extractPort host = "80") ∧
    (host.data = pre ++ ':' :: seg → ':' ∉ seg → ']' ∉ seg → seg ≠ [] →
      seg.all Char.isDigit = true → Handler.digitsToNat seg < 2 ^ 63 →
      Handler.extractPort host = String.mk seg) := by
  refine ⟨?_, ?_, ?_⟩
  · intro hpath
    simp only [Handler.ServeHTTP, if_neg hpath]
    rfl
  · intro hnc
    unfold Handler.extractPort
    rw [hnc]
    rfl
  · intro hsplit hnc hnb hne hdig hlt
    have hmem : ':' ∈ host.data := by
      rw [hsplit]
      exact List.mem_append_right _ (List.mem_cons_self _ _)
    have hcont : host.data.contains ':' = true := by
      rw [List.contains_eq_any_beq, List.any_eq_true]
      exact ⟨':', hmem, by simp⟩
    have hcolon : Handler.lastIndexOf host.data ':' = some pre.length := by
      rw [hsplit]
      exact lastIndexOf_append_last hnc
    have hbr : (match Handler.lastIndexOf host.data ']' with
        | some i => decide (pre.length ≤ i)
        | none => false) = false := by
      rw [hsplit, lastIndexOf_append_other hnb (by decide)]
      cases hlb : Handler.lastIndexOf pre ']' with
      | none => rfl
      | some i =>
        have := lastIndexOf_lt_length hlb
        simp [Nat.not_le_of_lt this]
    have hdrop : (host.data.drop (pre.length + 1)) = seg := by
      rw [hsplit]
      have heq : pre ++ ':' :: seg = (pre ++ [':']) ++ seg := by
        simp
      have hlen : pre.length + 1 = (pre ++ [':']).length := by
        simp
      rw [heq, hlen, List.drop_left]
    unfold Handler.extractPort
    rw [hcont, if_pos rfl]
    unfold Handler.parseHostPort
    rw [hcolon]
    simp only [hbr, Bool.false_eq_true, if_false, hdrop,
      goAtoi_digits hne hdig hlt]
    rw [if_pos (by simpa using hne)]

/-- C7 witness: scenario S4 — `GET http://proxy:30001/foo?x=1` with current
IP `10.0.1.1` is forwarded to `http://10.0.1.1:30001/foo?x=1` — plus the
two `extractPort` characterizations at `"proxy:30001"` and `"proxy"`. -/
theorem forwarded_url_preserves_port_witness :
    Handler.extractPort "proxy:30001" = "30001" ∧
    Handler.extractPort "proxy" = "80" ∧
    Handler.ServeHTTP (.ok "10.0.1.1") "proxy:30001" "/foo" "x=1" =
      .forwardTo "http://10.0.1.1:30001/foo?x=1" := by
  have h := forwarded_url_preserves_port "10.0.1.1" "proxy:30001" "/foo" "x=1"
    "proxy".data "30001".data
  have h2 := forwarded_url_preserves_port "10.0.1.1" "proxy" "/foo" "x=1" [] []
  have hport : Handler.extractPort "proxy:30001" = String.mk "30001".data :=
    h.2.2 (by decide) (by decide) (by decide) (by decide) (by decide) (by decide)
  have hport' : Handler.extractPort "proxy:30001" = "30001" := hport
  refine ⟨hport', h2.2.1 (by decide), ?_⟩
  have hfwd := h.1 (by decide)
  rw [hfwd, hport']
  rfl

/-!
## C8 — hop-by-hop header stripping

Inbound header names parsed by Go's `net/http` consist of ASCII token
characters, on which Go's Unicode `strings.ToLower` and the ASCII
`String.toLower` used here agree. -/

/-- The eight hop-by-hop header names of the specification, lowercase. -/
def hopByHopNames : List String :=
  ["connection", "upgrade", "proxy-connection", "proxy-authenticate",
   "proxy-authorization", "te", "trailers", "transfer-encoding"]

theorem shouldSkipHeader_iff (k : String) :
    Handler.shouldSkipHeader k = true ↔ Handler.lowerName k ∈ hopByHopNames := by
  simp only [Handler.shouldSkipHeader, hopByHopNames, List.mem_cons,
    List.not_mem_nil, or_false, Bool.or_eq_true, decide_eq_true_iff]
  tauto

/-- C8: the forwarded header map contains no header whose lowercased name is
one of the eight hop-by-hop names, whatever the letter case of the inbound
name; every other inbound header is forwarded unchanged, with all of its
values, in order (the forwarded list is a sublist of the inbound one). -/
theorem hop_by_hop_headers_stripped (hs : List (String × List String)) :
    (∀ kv ∈ Handler.forwardHeaders hs, Handler.lowerName kv.1 ∉ hopByHopNames) ∧
    (∀ kv ∈ hs, Handler.lowerName kv.1 ∉ hopByHopNames →
      kv ∈ Handler.forwardHeaders hs) ∧
    (Handler.forwardHeaders hs).Sublist hs := by
  refine ⟨?_, ?_, List.filter_sublist hs⟩
  · intro kv hkv
    have := (List.mem_filter.mp hkv).2
    rw [Bool.not_eq_eq_eq_not, Bool.not_true] at this
    intro hmem
    have := (shouldSkipHeader_iff kv.1).mpr hmem
    simp_all
  · intro kv hkv hmem
    refine List.mem_filter.mpr ⟨hkv, ?_⟩
    rw [Bool.not_eq_eq_eq_not, Bool.not_true]
    by_contra hne
    have : Handler.shouldSkipHeader kv.1 = true := by
      cases h : Handler.shouldSkipHeader kv.1 with
      | true => rfl
      | false => exact absurd h hne
    exact hmem ((shouldSkipHeader_iff kv.1).mp this)

/-- C8 witness: a mixed-case inbound set — `Connection`, `UPGRADE`, `TE`
and `Content-Type` — keeps exactly `Content-Type` with its values. -/
theorem hop_by_hop_headers_stripped_witness :
    ("Content-Type", ["text/html"]) ∈
      ([("Connection", ["keep-alive"]), ("UPGRADE", ["websocket"]),
        ("TE", ["trailers"]), ("Content-Type", ["text/html"])] :
        List (String × List String)) ∧
    Handler.lowerName "Content-Type" ∉ hopByHopNames ∧
    ("Content-Type", ["text/html"]) ∈ Handler.forwardHeaders
      [("Connection", ["keep-alive"]), ("UPGRADE", ["websocket"]),
       ("TE", ["trailers"]), ("Content-Type", ["text/html"])] ∧
    Handler.forwardHeaders
      [("Connection", ["keep-alive"]), ("UPGRADE", ["websocket"]),
       ("TE", ["trailers"]), ("Content-Type", ["text/html"])] =
      [("Content-Type", ["text/html"])] := by
  have h := hop_by_hop_headers_stripped
    [("Connection", ["keep-alive"]), ("UPGRADE", ["websocket"]),
     ("TE", ["trailers"]), ("Content-Type", ["text/html"])]
  exact ⟨by decide, by decide,
    h.2.1 ("Content-Type", ["text/html"]) (by decide) (by decide), by decide⟩

/-!
## C9 — management-port isolation
-/

/-- C9 (amended): on the management mux of `Server.createServiceHandler`,
every path other than `/`, `/favicon.ico` and `/health` — including
`/info`, which this handler does not serve — is answered 404, and no path
is ever forwarded; the `GenericServer` management mux serves `/info` and
routes every other path to the homepage handler through the `/` catch-all
(so it answers 200-family responses, not 404), and likewise never
forwards. -/
theorem management_port_never_proxies (path : String) :
    (path ≠ "/" → path ≠ "/favicon.ico" → path ≠ "/health" →
      Server.createServiceHandler path = Handler.PortAction.respondNotFound) ∧
    (∀ url, Server.createServiceHandler path ≠
      Handler.PortAction.forwardTo url) ∧
    (∀ url, GenericServer.createServiceHandler path ≠
      Handler.PortAction.forwardTo url) ∧
    (path ≠ "/info" →
      GenericServer.createServiceHandler path =
        Handler.PortAction.respondHomepage) := by
  refine ⟨?_, ?_, ?_, ?_⟩
  · intro h1 h2 h3
    simp only [Server.createServiceHandler, if_neg h1, if_neg h2, if_neg h3]
  · intro url
    unfold Server.createServiceHandler
    by_cases h1 : path = "/"
    · simp [h1]
    · by_cases h2 : path = "/favicon.ico"
      · simp [h1, h2]
      · by_cases h3 : path = "/health"
        · simp [h1, h2, h3]
        · simp [h1, h2, h3]
  · intro url
    unfold GenericServer.createServiceHandler
    by_cases h : path = "/info"
    · simp [h]
    · simp [h]
  · intro h
    simp only [GenericServer.createServiceHandler, if_neg h]

/-- C9 witness: scenario S5 — `/anything-else` on the management port is
answered 404 by the `Server` mux and reaches no forward on either mux. -/
theorem management_port_never_proxies_witness :
    Server.createServiceHandler "/anything-else" =
      Handler.PortAction.respondNotFound ∧
    Server.createServiceHandler "/anything-else" ≠
      Handler.PortAction.forwardTo "http://10.0.1.1:80/anything-else" ∧
    GenericServer.createServiceHandler "/anything-else" ≠
      Handler.PortAction.forwardTo "http://10.0.1.1:80/anything-else" ∧
    GenericServer.createServiceHandler "/anything-else" =
      Handler.PortAction.respondHomepage := by
  have h := management_port_never_proxies "/anything-else"
  exact ⟨h.1 (by decide) (by decide) (by decide),
    h.2.1 "http://10.0.1.1:80/anything-else",
    h.2.2.1 "http://10.0.1.1:80/anything-else",
    h.2.2.2 (by decide)⟩

/-- C9 counterexample: `/favicon.ico` is not one of `/`, `/health`, `/info`,
yet the `Server` management mux answers it 200 with the favicon, not 404;
and the `GenericServer` mux answers an arbitrary unknown path with the
homepage, not 404. -/
theorem management_port_never_proxies_counterexample :
    Server.createServiceHandler "/favicon.ico" =
      Handler.PortAction.respondFavicon ∧
    Handler.PortAction.respondFavicon ≠ Handler.PortAction.respondNotFound ∧
    ("/favicon.ico" : String) ≠ "/" ∧ ("/favicon.ico" : String) ≠ "/health" ∧
    ("/favicon.ico" : String) ≠ "/info" ∧
    GenericServer.createServiceHandler "/anything-else" =
      Handler.PortAction.respondHomepage ∧
    Handler.PortAction.respondHomepage ≠ Handler.PortAction.respondNotFound := by
  decide

/-!
## C10 — empty namespace at service discovery and boot

Two service discoveries coexist.  The Generic one
(`GenericNodePortDiscovery`, internal/services/generic_discovery.go) reads
`NAMESPACE` and fails when it is empty.  The GKE one (`NodePortDiscovery`,
package k8s) has no namespace input at all: `DiscoverServices` calls
`Services("").List`, which enumerates services across **all** namespaces,
and `Server.Run` (internal/server/server.go) reads `NAMESPACE` only to
display it in `ServerInfo`.  The `namespaceEnv` argument of `Server.Run`
below records that display-only read: the boot's behaviour cannot depend
on it. -/

namespace NodePortDiscovery

/-- The conversion loop shared by both `DiscoverServices` bodies: keep, for
every service of type NodePort, its port entries with a non-zero
`nodePort`. -/
def convert (items : List RawService) : List ServiceInfo :=
  items.flatMap (fun service =>
    if service.svcType = "NodePort" then
      service.ports.filterMap (fun port =>
        if port.nodePort != 0 then
          some ⟨service.name, service.ns, port.nodePort, port.targetPort,
            port.protocol⟩
        else
          none)
    else
      [])

/-- GKE `DiscoverServices`: `Services("").List` across all namespaces —
no namespace parameter and no configuration check. -/
def DiscoverServices (fetch : Except String (List RawService)) :
    Except String (List ServiceInfo) :=
  match fetch with
  | .error e => .error ("failed to list services: " ++ e)
  | .ok items => .ok (convert items)

/-- GKE `DiscoverNodePorts`: the `nodePort` numbers of `DiscoverServices`. -/
def DiscoverNodePorts (fetch : Except String (List RawService)) :
    Except String (List Int) :=
  match DiscoverServices fetch with
  | .error e => .error e
  | .ok services => .ok (services.map (fun s => s.nodePort))

end NodePortDiscovery

namespace Server

/-- The startup half of the GKE `Server.Run`: `collectServerInfo` (which
runs `DiscoverServices`, `getAllNodeIPs` — a `GetCurrentNodeIP` call on the
freshly-built empty discovery state — and `GetAllNodes` on the same fetch
outcome) aborts the boot on error before any listener exists; then the
management port is started, the initial node selection soft-fails, the
monitor starts, `DiscoverNodePorts` runs, and one proxy listener is
started per discovered port, skipping the management port.  A clean
signal-driven shutdown exits 0. -/
def Run (namespaceEnv : String) (servicePort : Int)
    (svcFetch : Except String (List RawService))
    (nodesFetch : Except String (List NodeInfo)) (now : Nat) : BootResult :=
  match NodePortDiscovery.DiscoverServices svcFetch with
  | .error _ => { exitCode := 1, startedPorts := [] }
  | .ok _ =>
    match NodeDiscovery.GetCurrentNodeIP gkeEmptyState nodesFetch now with
    | .error _ => { exitCode := 1, startedPorts := [] }
    | .ok _ =>
      match nodesFetch with
      | .error _ => { exitCode := 1, startedPorts := [] }
      | .ok _ =>
        match NodePortDiscovery.DiscoverNodePorts svcFetch with
        | .error _ => { exitCode := 1, startedPorts := [servicePort] }
        | .ok ports =>
          { exitCode := 0,
            startedPorts := servicePort ::
              ports.filter (fun p => p != servicePort) }

end Server

/-- C10 (amended): the Generic discovery honours the contract — with an
empty namespace `DiscoverServices` and `DiscoverNodePorts` return the
configuration error and no service list, and the `GenericServer` boot
exits non-zero with no listener started.  The GKE boot does not: its
`NodePortDiscovery.DiscoverServices` never reads the namespace (it lists
services cluster-wide), `Server.Run`'s result is independent of the
namespace value, and a GKE boot with an empty namespace and reachable
cluster opens the management listener plus one listener per discovered
NodePort and exits zero. -/
theorem empty_namespace_discovery_and_boot (servicePort : Int)
    (svcFetch : Except String (List RawService))
    (nodesFetch : Except String (List NodeInfo))
    (items : List RawService) (raws : List NodeInfo)
    (ns1 ns2 : String) (now : Nat) :
    GenericNodePortDiscovery.DiscoverServices "" svcFetch =
      .error "NAMESPACE environment variable is required" ∧
    GenericNodePortDiscovery.DiscoverNodePorts "" svcFetch =
      .error "NAMESPACE environment variable is required" ∧
    (GenericServer.Run "" servicePort svcFetch nodesFetch).exitCode = 1 ∧
    (GenericServer.Run "" servicePort svcFetch nodesFetch).startedPorts = [] ∧
    NodePortDiscovery.DiscoverServices (.ok items) =
      .ok (NodePortDiscovery.convert items) ∧
    Server.Run ns1 servicePort svcFetch nodesFetch now =
      Server.Run ns2 servicePort svcFetch nodesFetch now ∧
    (surfacedNodes raws ≠ [] →
      Server.Run "" servicePort (.ok items) (.ok raws) now =
        { exitCode := 0,
          startedPorts := servicePort ::
            ((NodePortDiscovery.convert items).map
              (fun s => s.nodePort)).filter (fun p => p != servicePort) }) := by
  refine ⟨rfl, rfl, rfl, rfl, rfl, rfl, ?_⟩
  intro hne
  obtain ⟨ip, st', hg⟩ : ∃ ip st',
      NodeDiscovery.GetCurrentNodeIP gkeEmptyState (.ok raws) now =
        .ok (ip, st') := by
    cases hsurf : surfacedNodes raws with
    | nil => exact absurd hsurf hne
    | cons n0 rest =>
      refine ⟨((NodeDiscovery.findOldestHealthyNode (n0 :: rest)).getD n0).ip,
        { gkeEmptyState with
          cachedIP :=
            ((NodeDiscovery.findOldestHealthyNode (n0 :: rest)).getD n0).ip
          cachedNodes := n0 :: rest
          currentNodeName :=
            ((NodeDiscovery.findOldestHealthyNode (n0 :: rest)).getD n0).name
          cacheTime := now }, ?_⟩
      unfold NodeDiscovery.GetCurrentNodeIP
      rw [if_neg (by simp [gkeEmptyState])]
      unfold NodeDiscovery.discoverNodeIP
      rw [surfaced_eq, hsurf]
  unfold Server.Run
  rw [hg]
  rfl

/-- The NodePort service of the EKS mock fixture: `test-service` in
`default` exposing 30001. -/
def svcTest : RawService :=
  { name := "test-service", ns := "default", svcType := "NodePort",
    ports := [{ nodePort := 30001, targetPort := 8080, protocol := "TCP" }] }

/-- C10 witness: the amended theorem applied at a concrete cluster — one
healthy node, one NodePort service on 30001, management port 80. -/
theorem empty_namespace_discovery_and_boot_witness :
    GenericNodePortDiscovery.DiscoverServices "" (.ok [svcTest]) =
      .error "NAMESPACE environment variable is required" ∧
    (GenericServer.Run "" 80 (.ok [svcTest]) (.ok [nodeA])).exitCode = 1 ∧
    (GenericServer.Run "" 80 (.ok [svcTest]) (.ok [nodeA])).startedPorts = [] ∧
    surfacedNodes [nodeA] ≠ [] ∧
    Server.Run "" 80 (.ok [svcTest]) (.ok [nodeA]) 0 =
      { exitCode := 0,
        startedPorts := (80 : Int) ::
          ((NodePortDiscovery.convert [svcTest]).map
            (fun s => s.nodePort)).filter (fun p => p != 80) } := by
  have h := empty_namespace_discovery_and_boot 80 (.ok [svcTest]) (.ok [nodeA])
    [svcTest] [nodeA] "" "" 0
  exact ⟨h.1, h.2.2.1, h.2.2.2.1, by decide, h.2.2.2.2.2.2 (by decide)⟩

/-- C10 counterexample: a GKE boot with an empty namespace, a reachable
cluster holding the healthy node `a` and the NodePort service
`test-service` on 30001, opens the listeners on 80 and 30001 and exits 0 —
it neither fails the discovery with a configuration error nor exits
non-zero, contradicting the claim on the cited `Server.Run` boot. -/
theorem empty_namespace_discovery_and_boot_counterexample :
    (NodePortDiscovery.DiscoverServices (.ok [svcTest])).toOption =
      some [{ name := "test-service", ns := "default", nodePort := 30001,
              targetPort := 8080, protocol := "TCP" }] ∧
    Server.Run "" 80 (.ok [svcTest]) (.ok [nodeA]) 0 =
      { exitCode := 0, startedPorts := [80, 30001] } ∧
    ([80, 30001] : List Int) ≠ [] := by
  decide
